import Mathlib

/-!
Verification development for the gunshot repository (a motion-controlled
arcade shooter).  The definitions below are a shallow embedding of the
JavaScript sources:

* `src/js/effects.js` — the `Game` class: session state (score, combo,
  accuracy), the trigger edge detector (`updateGesture` / `onGestureLost`),
  the magnetic acquisition and lock logic inside `Game.update`, and the
  target registry (`createDisc`, `repositionDisc`, the per-tick disc loop
  and top-up).
* `src/js/hand-tracking.js` — the `HandTracker` class: the landmark
  classifier in `processResults` and the `distance` helper.

Machine numbers are modelled as real numbers (`ℝ`); the only place where
JavaScript number semantics differ in a way the code can observe is
division by zero inside the curl-ratio math, which is modelled explicitly
by the `JSNum` type (NaN / Infinity results).  Timestamps (`Date.now()`)
are modelled as integers (milliseconds).  `Math.random()` draws are passed
in as explicit parameters.  DOM / Three.js / audio side effects are
dropped; discrete notifications the claims mention (shot fired, lock
sound) are returned as boolean outputs.
-/

namespace Gunshot

/-- JavaScript `Math.round` on a rational value (round half up). -/
def jsRound (q : ℚ) : ℤ := ⌊q + 1/2⌋

/-! ## Game session state (`Game` constructor in `effects.js`)

The fields mirror `this.state` of the `Game` class.  UI-only fields are
dropped.  `lockedTarget` keeps the point value of the locked disc (the
only attribute of the locked disc that the scoring path reads);
`accuracy` is the displayed accuracy text, `none` while it has never been
written.  `innerW`/`innerH` model `window.innerWidth/Height`. -/

structure GameState where
  score : ℤ
  combo : ℕ
  maxCombo : ℕ
  hits : ℕ
  shots : ℕ
  lastHitTime : ℤ
  comboTimeout : ℤ
  crosshairX : ℝ
  crosshairY : ℝ
  targetX : ℝ
  targetY : ℝ
  isGunPose : Bool
  wasThumbUp : Bool
  isShooting : Bool
  shootCooldown : ℤ
  lockedTarget : Option ℤ
  wasLocked : Bool
  accuracy : Option ℤ
  innerW : ℝ
  innerH : ℝ

/-- Initial session state, from the `Game` constructor (`this.state`). -/
noncomputable def initState (w h : ℝ) : GameState :=
  { score := 0, combo := 1, maxCombo := 1, hits := 0, shots := 0,
    lastHitTime := 0, comboTimeout := 2000,
    crosshairX := w / 2, crosshairY := h / 2,
    targetX := w / 2, targetY := h / 2,
    isGunPose := false, wasThumbUp := true, isShooting := false,
    shootCooldown := 200, lockedTarget := none, wasLocked := false,
    accuracy := none, innerW := w, innerH := h }

/-- `Game.hitTarget(disc)`: combo update, `maxCombo` tracking, score delta
`basePoints * combo`, and synchronous clearing of the locked target.
`pts` is `disc.userData.points`; `now` is `Date.now()`. -/
def hitTarget (now : ℤ) (pts : ℤ) (s : GameState) : GameState :=
  let s1 := { s with hits := s.hits + 1 }
  let timeSinceLastHit := now - s1.lastHitTime
  let combo1 : ℕ := if timeSinceLastHit < s1.comboTimeout then min (s1.combo + 1) 10 else 1
  let s2 := { s1 with combo := combo1, lastHitTime := now }
  let s3 := { s2 with maxCombo := if s2.maxCombo < combo1 then combo1 else s2.maxCombo }
  { s3 with score := s3.score + pts * (combo1 : ℤ), lockedTarget := none }

/-- `Game.miss()`: combo resets to 1 unconditionally. -/
def missShot (s : GameState) : GameState :=
  { s with combo := 1 }

/-- `Game.updateAccuracy()`: early return while `shots == 0`, otherwise
writes `Math.round(hits / shots * 100)` to the accuracy display. -/
def updateAccuracy (s : GameState) : GameState :=
  if s.shots = 0 then s
  else { s with accuracy := some (jsRound ((s.hits : ℚ) / (s.shots : ℚ) * 100)) }

/-- `Game.shoot()`: guarded by `isShooting`; increments `shots`, enters the
cooldown (`isShooting := true`), resolves hit or miss from `lockedTarget`,
then updates the accuracy display.  The cooldown timer that later resets
`isShooting` is a separate event (`Ev.cooldownEnd`). -/
def shoot (now : ℤ) (s : GameState) : GameState :=
  if s.isShooting then s
  else
    let s1 := { s with isShooting := true, shots := s.shots + 1 }
    let s2 := match s1.lockedTarget with
      | some pts => hitTarget now pts s1
      | none => missShot s1
    updateAccuracy s2

/-- `Game.updateGesture(gestureState)`: records the pose, updates the aim
target from the fingertip while the pose is held, fires on the thumb
up-to-down edge (`!isThumbUp && wasThumbUp && !isShooting`), and stores the
current thumb reading in `wasThumbUp`; without the gun pose it forces
`wasThumbUp := true`.  Returns the new state and whether a shot fired. -/
def updateGesture (pose thumb : Bool) (fx fy : ℝ) (now : ℤ) (s : GameState) :
    GameState × Bool :=
  let s0 := { s with isGunPose := pose }
  if pose then
    let s1 := { s0 with targetX := fx * s0.innerW, targetY := fy * s0.innerH }
    if !thumb && s1.wasThumbUp && !s1.isShooting then
      ({ shoot now s1 with wasThumbUp := thumb }, true)
    else
      ({ s1 with wasThumbUp := thumb }, false)
  else
    ({ s0 with wasThumbUp := true }, false)

/-- `Game.onGestureLost()`: only `isGunPose` changes (plus UI resets that
are outside the model); in particular `wasThumbUp`, `targetX`, `targetY`,
`lockedTarget` and `wasLocked` are left untouched. -/
def onGestureLost (s : GameState) : GameState :=
  { s with isGunPose := false }

/-! ## Magnetic acquisition (`Game.update` in `effects.js`)

`this.magnetConfig = { range: 120, strength: 0.6 }` and
`this.smoothing = 0.12`.  A disc enters the scan as an `Entry`: its point
value together with its projected screen position (`worldToScreen` is the
external rendering collaborator). -/

def magnetRange : ℝ := 120

def magnetStrengthMax : ℝ := 0.6

def smoothing : ℝ := 0.12

/-- The inline blend factor `(1 - nearestDist / range) * strength`. -/
noncomputable def magnetStrength (d : ℝ) : ℝ :=
  (1 - d / magnetRange) * magnetStrengthMax

/-- One candidate for the scan: `(points, screenX, screenY)`. -/
abbrev Entry := ℤ × ℝ × ℝ

/-- Screen-space Euclidean distance (`dx`,`dy` only, as in the loop). -/
noncomputable def screenDist (x1 y1 x2 y2 : ℝ) : ℝ :=
  Real.sqrt ((x1 - x2) ^ 2 + (y1 - y2) ^ 2)

/-- Distance from an entry's screen position to the raw aim point. -/
noncomputable def entryDist (tx ty : ℝ) (e : Entry) : ℝ :=
  screenDist e.2.1 e.2.2 tx ty

/-- `dist < nearestDist` where `nearestDist` starts at `Infinity`. -/
def closerThan (acc : Option (Entry × ℝ)) (d : ℝ) : Prop :=
  match acc with
  | none => True
  | some p => d < p.2

open Classical in
/-- The nearest-disc loop of `Game.update`: keep the first candidate whose
distance is both below the best so far and strictly inside the capture
radius. -/
noncomputable def magnetScan (tx ty : ℝ) (entries : List Entry) :
    Option (Entry × ℝ) :=
  entries.foldl
    (fun acc e =>
      let d := entryDist tx ty e
      if closerThan acc d ∧ d < magnetRange then some (e, d) else acc)
    none

/-- The branch of `Game.update` taken when no candidate is selected or the
gun pose is inactive: unlock, reset `wasLocked`, smooth the crosshair
toward the raw aim point. -/
def tickNoLock (s : GameState) : GameState :=
  { s with lockedTarget := none, wasLocked := false,
           crosshairX := s.crosshairX + (s.targetX - s.crosshairX) * smoothing,
           crosshairY := s.crosshairY + (s.targetY - s.crosshairY) * smoothing }

/-- The per-frame magnet / lock part of `Game.update`: scan for the nearest
in-radius disc, and if one exists while the gun pose is active, blend the
effective aim point toward it, lock it, and play the lock notification on
the `wasLocked` rising edge.  Returns the state and whether the lock sound
played. -/
noncomputable def stepTick (entries : List Entry) (s : GameState) :
    GameState × Bool :=
  match magnetScan s.targetX s.targetY entries with
  | some (e, d) =>
      if s.isGunPose then
        let strength := magnetStrength d
        let fx := s.targetX + (e.2.1 - s.targetX) * strength
        let fy := s.targetY + (e.2.2 - s.targetY) * strength
        (({ s with lockedTarget := some e.1, wasLocked := true,
                   crosshairX := s.crosshairX + (fx - s.crosshairX) * smoothing,
                   crosshairY := s.crosshairY + (fy - s.crosshairY) * smoothing }),
         !s.wasLocked)
      else (tickNoLock s, false)
  | none => (tickNoLock s, false)

/-! ## Session events

The two cooperative drivers of the system (detection callbacks and the
render loop) interleave as a sequence of discrete events. -/

inductive Ev where
  | gesture (pose thumb : Bool) (fx fy : ℝ) (now : ℤ)
  | lost
  | cooldownEnd
  | tick (entries : List Entry)

/-- Discrete notifications produced by one event. -/
structure Output where
  fired : Bool
  lockSound : Bool

/-- One event step of the session. -/
noncomputable def step (s : GameState) : Ev → GameState × Output
  | .gesture pose thumb fx fy now =>
      let r := updateGesture pose thumb fx fy now s
      (r.1, ⟨r.2, false⟩)
  | .lost => (onGestureLost s, ⟨false, false⟩)
  | .cooldownEnd => ({ s with isShooting := false }, ⟨false, false⟩)
  | .tick entries =>
      let r := stepTick entries s
      (r.1, ⟨false, r.2⟩)

/-- Run a sequence of events from a state. -/
noncomputable def runFrom (s : GameState) : List Ev → GameState
  | [] => s
  | e :: evs => runFrom (step s e).1 evs

/-- Run a sequence of events from the initial session state. -/
noncomputable def run (w h : ℝ) (evs : List Ev) : GameState :=
  runFrom (initState w h) evs

/-- Number of shots fired along a run. -/
noncomputable def firedCount (s : GameState) : List Ev → ℕ
  | [] => 0
  | e :: evs =>
      (if (step s e).2.fired then 1 else 0) + firedCount (step s e).1 evs

/-- Number of lock-sound notifications along a run. -/
noncomputable def lockSoundCount (s : GameState) : List Ev → ℕ
  | [] => 0
  | e :: evs =>
      (if (step s e).2.lockSound then 1 else 0) + lockSoundCount (step s e).1 evs

/-! ## Hand tracking (`HandTracker` in `hand-tracking.js`)

One MediaPipe landmark; `z` is optional in the source (`p.z || 0`), frames
always carry it here. -/

structure Landmark where
  x : ℝ
  y : ℝ
  z : ℝ

/-- A landmark frame: the 21 tracked points. -/
abbrev Frame := Fin 21 → Landmark

/-- `HandTracker.distance(p1, p2)`: 3D Euclidean distance. -/
noncomputable def distance (p1 p2 : Landmark) : ℝ :=
  Real.sqrt ((p1.x - p2.x) ^ 2 + (p1.y - p2.y) ^ 2 + (p1.z - p2.z) ^ 2)

/-- The value of one JavaScript arithmetic result: an ordinary (finite)
number, a signed infinity, or NaN.  Only the curl-ratio divisions can
leave the finite range, so this type appears exactly there. -/
inductive JSNum where
  | fin (x : ℝ)
  | posInf
  | negInf
  | nan

/-- JavaScript division `a / b` for finite operands (`0/0 = NaN`,
`a/0 = ±Infinity` for `a ≠ 0`, ordinary division otherwise).  The divisors
in the classifier are distances, hence a zero divisor is `+0`. -/
noncomputable def jdiv (a b : ℝ) : JSNum :=
  if b = 0 then
    (if a = 0 then JSNum.nan else if 0 < a then JSNum.posInf else JSNum.negInf)
  else JSNum.fin (a / b)

/-- JavaScript `v > t` for a possibly non-finite left operand
(`NaN > t` is false). -/
def JSNum.gtR : JSNum → ℝ → Prop
  | .fin x, t => t < x
  | .posInf, _ => True
  | .negInf, _ => False
  | .nan, _ => False

/-- JavaScript `v < t` for a possibly non-finite left operand
(`NaN < t` is false). -/
def JSNum.ltR : JSNum → ℝ → Prop
  | .fin x, t => x < t
  | .posInf, _ => False
  | .negInf, _ => True
  | .nan, _ => False

/-! Landmark indices used by `processResults`: wrist 0, thumb 2/3/4,
index 5/6/7/8, middle 10/12, ring 14/16, pinky 18/20. -/

/-- `indexCurl = distance(indexTip, indexPip) / distance(indexPip, indexMcp)`. -/
noncomputable def indexCurl (lm : Frame) : JSNum :=
  jdiv (distance (lm 8) (lm 6)) (distance (lm 6) (lm 5))

/-- `indexExtended = indexCurl > 0.8 && indexTip.y < indexPip.y`. -/
noncomputable def indexExtended (lm : Frame) : Prop :=
  (indexCurl lm).gtR 0.8 ∧ (lm 8).y < (lm 6).y

/-- `middleCurl = distance(middleTip, wrist) / distance(middlePip, wrist)`. -/
noncomputable def middleCurl (lm : Frame) : JSNum :=
  jdiv (distance (lm 12) (lm 0)) (distance (lm 10) (lm 0))

/-- `middleFolded = middleCurl < 1.3 || middleTip.y > middlePip.y`. -/
noncomputable def middleFolded (lm : Frame) : Prop :=
  (middleCurl lm).ltR 1.3 ∨ (lm 10).y < (lm 12).y

/-- `ringCurl = distance(ringTip, wrist) / distance(ringPip, wrist)`. -/
noncomputable def ringCurl (lm : Frame) : JSNum :=
  jdiv (distance (lm 16) (lm 0)) (distance (lm 14) (lm 0))

/-- `ringFolded = ringCurl < 1.3 || ringTip.y > ringPip.y`. -/
noncomputable def ringFolded (lm : Frame) : Prop :=
  (ringCurl lm).ltR 1.3 ∨ (lm 14).y < (lm 16).y

/-- `pinkyCurl = distance(pinkyTip, wrist) / distance(pinkyPip, wrist)`. -/
noncomputable def pinkyCurl (lm : Frame) : JSNum :=
  jdiv (distance (lm 20) (lm 0)) (distance (lm 18) (lm 0))

/-- `pinkyFolded = pinkyCurl < 1.3 || pinkyTip.y > pinkyPip.y`. -/
noncomputable def pinkyFolded (lm : Frame) : Prop :=
  (pinkyCurl lm).ltR 1.3 ∨ (lm 18).y < (lm 20).y

/-- `thumbUp = thumbTip.y < thumbIp.y - 0.02`. -/
def thumbIsUp (lm : Frame) : Prop :=
  (lm 4).y < (lm 3).y - 0.02

open Classical in
/-- `othersFolded = middleFolded + ringFolded + pinkyFolded` (booleans
summed as 0/1). -/
noncomputable def othersFolded (lm : Frame) : ℕ :=
  (if middleFolded lm then 1 else 0) + (if ringFolded lm then 1 else 0) +
    (if pinkyFolded lm then 1 else 0)

/-- `isGunPose = indexExtended && othersFolded >= 2`. -/
noncomputable def isGunPose (lm : Frame) : Prop :=
  indexExtended lm ∧ 2 ≤ othersFolded lm

open Classical in
/-- The confidence sum: `0.4` for the extended index finger and `0.2` per
folded finger. -/
noncomputable def confidence (lm : Frame) : ℝ :=
  (if indexExtended lm then 0.4 else 0) + (if middleFolded lm then 0.2 else 0) +
    (if ringFolded lm then 0.2 else 0) + (if pinkyFolded lm then 0.2 else 0)

/-- The published tracker state (`this.gestureState` plus the persistent
`this.smoothedPosition` of the smoother). -/
structure TrackerState where
  gunPose : Bool
  thumbUpFlag : Bool
  fingerTip : ℝ × ℝ
  conf : ℝ
  landmarks : Option Frame
  smoothed : ℝ × ℝ

/-- Initial tracker state from the `HandTracker` constructor. -/
noncomputable def initTracker : TrackerState :=
  { gunPose := false, thumbUpFlag := false, fingerTip := (0.5, 0.5),
    conf := 0, landmarks := none, smoothed := (0.5, 0.5) }

/-- `this.smoothingFactor` of the position smoother. -/
def smoothingFactor : ℝ := 0.4

open Classical in
/-- `HandTracker.processResults(results)`: with no hand, only `isGunPose`,
`confidence` and `landmarks` are overwritten; with a hand, the classifier
runs, the mirrored fingertip is blended into the smoothed position, and a
fresh gesture state is published. -/
noncomputable def processResults (s : TrackerState) :
    Option Frame → TrackerState
  | none =>
      { s with gunPose := false, conf := 0, landmarks := none }
  | some lm =>
      let rawX := 1 - (lm 8).x
      let rawY := (lm 8).y
      let sx := s.smoothed.1 + (rawX - s.smoothed.1) * smoothingFactor
      let sy := s.smoothed.2 + (rawY - s.smoothed.2) * smoothingFactor
      { gunPose := if isGunPose lm then true else false,
        thumbUpFlag := if thumbIsUp lm then true else false,
        fingerTip := (sx, sy),
        conf := confidence lm,
        landmarks := some lm,
        smoothed := (sx, sy) }

/-! ## The classifier as the specification words it (for refinement)

Modelled from the spec: §4.1 describes the curl ratios with ordinary
real-number division; these definitions follow the spec text and are
compared with the source-derived ones above on frames whose joint
distances are nonzero. -/

/-- Spec wording: curl ratio `distance(tip, first-joint) /
distance(first-joint, base-joint)` thresholded at 0.8, and the tip above
the first joint in screen space. -/
noncomputable def specIndexExtended (lm : Frame) : Prop :=
  0.8 < distance (lm 8) (lm 6) / distance (lm 6) (lm 5) ∧ (lm 8).y < (lm 6).y

/-- Spec wording: wrist-relative curl ratio below 1.3, or the tip below
its first joint. -/
noncomputable def specFolded (tip pip wrist : Landmark) : Prop :=
  distance tip wrist / distance pip wrist < 1.3 ∨ pip.y < tip.y

open Classical in
/-- Spec wording: the aim gesture needs the index finger extended and at
least 2 of the 3 other fingers folded. -/
noncomputable def specGunPose (lm : Frame) : Prop :=
  specIndexExtended lm ∧
    2 ≤ (if specFolded (lm 12) (lm 10) (lm 0) then 1 else 0) +
        (if specFolded (lm 16) (lm 14) (lm 0) then 1 else 0) +
        ((if specFolded (lm 20) (lm 18) (lm 0) then 1 else 0) : ℕ)

open Classical in
/-- Spec wording: confidence is 0.4 for the extended index finger plus 0.2
per folded finger. -/
noncomputable def specConfidence (lm : Frame) : ℝ :=
  (if specIndexExtended lm then 0.4 else 0) +
    (if specFolded (lm 12) (lm 10) (lm 0) then 0.2 else 0) +
    (if specFolded (lm 16) (lm 14) (lm 0) then 0.2 else 0) +
    (if specFolded (lm 20) (lm 18) (lm 0) then 0.2 else 0)

/-! ## Target registry (`discConfig`, `createDisc`, `repositionDisc`,
`removeDisc` and the disc part of `Game.update` / `Game.start`)

Object identity of a disc (a Three.js mesh in the source) is modelled by
an `id` drawn from a fresh-id counter; `userData` fields are inlined.
Every `Math.random()` draw is an explicit parameter. -/

def maxCount : ℕ := 4

def lifeTime : ℤ := 8000

def floatSpeed : ℝ := 0.008

def boundsMinX : ℝ := -4

def boundsMaxX : ℝ := 4

def boundsMinY : ℝ := -2.5

def boundsMaxY : ℝ := 2.5

/-- `discConfig.colors`. -/
def discColors : List ℕ := [0x00f5ff, 0xff00ff, 0x00ff88, 0xff6600, 0xffaa00]

/-- One live target entity (mesh position/rotation plus `userData`). -/
structure Disc where
  id : ℕ
  color : ℕ
  points : ℤ
  posX : ℝ
  posY : ℝ
  originX : ℝ
  originY : ℝ
  velX : ℝ
  velY : ℝ
  rotationSpeed : ℝ
  floatPhase : ℝ
  floatAmplitude : ℝ
  floatFrequency : ℝ
  createdAt : ℤ
  scale : ℝ
  rotX : ℝ
  rotY : ℝ
  rotZ : ℝ

/-- Scale one random pair into the world bounds, as in the placement
loops of `createDisc` / `repositionDisc`. -/
noncomputable def candPos (r : ℝ × ℝ) : ℝ × ℝ :=
  (boundsMinX + r.1 * (boundsMaxX - boundsMinX),
   boundsMinY + r.2 * (boundsMaxY - boundsMinY))

/-- `Game.isPositionOccupied(x, y)` with the default `minDistance = 1.5`. -/
noncomputable def isPositionOccupied (discs : List Disc) (x y : ℝ) : Prop :=
  ∃ d ∈ discs, Real.sqrt ((d.posX - x) ^ 2 + (d.posY - y) ^ 2) < 1.5

open Classical in
/-- The bounded do/while placement loop: redraw while the candidate is
occupied, giving up after 20 attempts (fuel counts remaining redraws). -/
noncomputable def choosePosGo (discs : List Disc) (rands : ℕ → ℝ × ℝ) :
    ℕ → ℕ → ℝ × ℝ
  | i, 0 => candPos (rands i)
  | i, fuel + 1 =>
      let p := candPos (rands i)
      if isPositionOccupied discs p.1 p.2 then choosePosGo discs rands (i + 1) fuel
      else p

/-- The accepted spawn position: first unoccupied draw, or the 20th draw. -/
noncomputable def choosePos (discs : List Disc) (rands : ℕ → ℝ × ℝ) : ℝ × ℝ :=
  choosePosGo discs rands 0 19

/-- The `Math.random()` draws consumed by one `createDisc` call. -/
structure SpawnParams where
  rands : ℕ → ℝ × ℝ
  colorIdx : ℕ
  angleR : ℝ
  rotR : ℝ
  phaseR : ℝ
  ampR : ℝ
  freqR : ℝ

/-- `Game.createDisc()`: color from the palette, placement via the bounded
rejection loop, random drift direction at `floatSpeed`, random spin,
phase, amplitude and frequency, `points = 100`, spawn scale `0.1`,
`createdAt = Date.now()`, torus laid flat (`rotation.x = π/2`). -/
noncomputable def mkDisc (discs : List Disc) (p : SpawnParams) (now : ℤ)
    (newId : ℕ) : Disc :=
  let pos := choosePos discs p.rands
  let angle := p.angleR * (2 * Real.pi)
  { id := newId,
    color := discColors.getD p.colorIdx 0,
    points := 100,
    posX := pos.1, posY := pos.2,
    originX := pos.1, originY := pos.2,
    velX := Real.cos angle * floatSpeed,
    velY := Real.sin angle * floatSpeed,
    rotationSpeed := (p.rotR - 0.5) * 0.08,
    floatPhase := p.phaseR * (2 * Real.pi),
    floatAmplitude := 0.3 + p.ampR * 0.2,
    floatFrequency := 0.5 + p.freqR * 0.5,
    createdAt := now,
    scale := 0.1,
    rotX := Real.pi / 2, rotY := 0, rotZ := 0 }

/-- The `Math.random()` draws consumed by one `repositionDisc` call. -/
structure RepoParams where
  rands : ℕ → ℝ × ℝ
  angleR : ℝ
  phaseR : ℝ

/-- `Game.repositionDisc(disc)`: a new origin via the same bounded
placement loop, a reset creation timestamp, a new float phase and a new
drift direction — every other field (identity, color, points, ...) is
untouched. -/
noncomputable def repositionDisc (discs : List Disc) (p : RepoParams)
    (now : ℤ) (d : Disc) : Disc :=
  let pos := choosePos discs p.rands
  let angle := p.angleR * (2 * Real.pi)
  { d with originX := pos.1, originY := pos.2,
           createdAt := now,
           floatPhase := p.phaseR * (2 * Real.pi),
           velX := Real.cos angle * floatSpeed,
           velY := Real.sin angle * floatSpeed }

open Classical in
/-- The per-disc body of the update loop in `Game.update`, up to (and not
including) the age check: spawn-in scale ramp, spin, sway, sinusoidal
float around the origin, drift of the origin, and boundary reflection. -/
noncomputable def discDrift (now : ℤ) (d : Disc) : Disc :=
  let nowR : ℝ := (now : ℝ)
  let scale1 := if d.scale < 1 then min 1 (d.scale + 0.05) else d.scale
  let rotZ1 := d.rotZ + d.rotationSpeed
  let rotX1 := Real.pi / 2 + Real.sin (nowR * 0.002 + d.floatPhase) * 0.15
  let rotY1 := Real.sin (nowR * 0.0015 + d.floatPhase) * 0.1
  let time := nowR * 0.001
  let floatX := Real.sin (time * d.floatFrequency + d.floatPhase) * d.floatAmplitude
  let floatY := Real.cos (time * d.floatFrequency * 0.7 + d.floatPhase) *
    d.floatAmplitude * 0.6
  let posX1 := d.originX + floatX
  let posY1 := d.originY + floatY
  let ox1 := d.originX + d.velX
  let oy1 := d.originY + d.velY
  let vx2 := if ox1 < boundsMinX ∨ boundsMaxX < ox1 then -d.velX else d.velX
  let ox2 := if ox1 < boundsMinX ∨ boundsMaxX < ox1 then
    max boundsMinX (min boundsMaxX ox1) else ox1
  let vy2 := if oy1 < boundsMinY ∨ boundsMaxY < oy1 then -d.velY else d.velY
  let oy2 := if oy1 < boundsMinY ∨ boundsMaxY < oy1 then
    max boundsMinY (min boundsMaxY oy1) else oy1
  { d with scale := scale1, rotZ := rotZ1, rotX := rotX1, rotY := rotY1,
           posX := posX1, posY := posY1,
           originX := ox2, originY := oy2, velX := vx2, velY := vy2 }

open Classical in
/-- The in-place iteration of the disc loop of `Game.update`: each disc
drifts, then — if its age exceeds `lifeTime` — is relocated in place,
with the occupancy check seeing the partially-updated registry (`done`
already processed, the current disc drifted, `rest` untouched). -/
noncomputable def updateGo (now : ℤ) (rp : ℕ → RepoParams) :
    ℕ → List Disc → List Disc → List Disc
  | _, done, [] => done
  | i, done, d :: rest =>
      let d1 := discDrift now d
      let d2 := if lifeTime < now - d1.createdAt then
        repositionDisc (done ++ d1 :: rest) (rp i) now d1 else d1
      updateGo now rp (i + 1) (done ++ [d2]) rest

/-- The disc loop of `Game.update` over the whole registry. -/
noncomputable def updateDiscs (now : ℤ) (rp : ℕ → RepoParams)
    (discs : List Disc) : List Disc :=
  updateGo now rp 0 [] discs

/-- The registry together with the fresh-id counter for object identity. -/
structure RegState where
  nextId : ℕ
  discs : List Disc

/-- The top-up loop at the end of `Game.update`:
`while (discs.length < maxCount) createDisc()`. -/
noncomputable def topUp (sp : ℕ → SpawnParams) (now : ℤ) (k : ℕ)
    (s : RegState) : RegState :=
  if s.discs.length < maxCount then
    topUp sp now (k + 1)
      ⟨s.nextId + 1, s.discs ++ [mkDisc s.discs (sp k) now s.nextId]⟩
  else s
termination_by maxCount - s.discs.length
decreasing_by simp; omega

/-- Registry-facing events: one render tick (disc loop plus top-up), one
staggered spawn timer from `Game.start` (unconditional `createDisc`), a
hit removal (`removeDisc`), and the delayed hit respawn timer
(`createDisc` only while below `maxCount`). -/
inductive RegEv where
  | tick (now : ℤ) (rp : ℕ → RepoParams) (sp : ℕ → SpawnParams)
  | startSpawn (now : ℤ) (p : SpawnParams)
  | hitRemove (i : ℕ)
  | respawn (now : ℤ) (p : SpawnParams)

/-- One registry event step. -/
noncomputable def regStep (s : RegState) : RegEv → RegState
  | .tick now rp sp => topUp sp now 0 ⟨s.nextId, updateDiscs now rp s.discs⟩
  | .startSpawn now p =>
      ⟨s.nextId + 1, s.discs ++ [mkDisc s.discs p now s.nextId]⟩
  | .hitRemove i => ⟨s.nextId, s.discs.eraseIdx i⟩
  | .respawn now p =>
      if s.discs.length < maxCount then
        ⟨s.nextId + 1, s.discs ++ [mkDisc s.discs p now s.nextId]⟩
      else s

/-- Run registry events from the empty registry of `Game.start`. -/
noncomputable def runReg (evs : List RegEv) : RegState :=
  evs.foldl regStep ⟨0, []⟩

/-- Invariant of the nearest-disc fold after a prefix of the entry list
has been processed: an empty accumulator means no processed entry was
inside the capture radius; a full accumulator holds the distance of its
entry, is inside the radius, and splits the prefix so that everything
before the selection is out of radius or strictly farther, and everything
after it is out of radius or no closer. -/
def scanInv (tx ty : ℝ) (processed : List Entry) :
    Option (Entry × ℝ) → Prop
  | none => ∀ e ∈ processed, ¬ entryDist tx ty e < magnetRange
  | some (e, d) =>
      d = entryDist tx ty e ∧ d < magnetRange ∧
      ∃ l1 l2, processed = l1 ++ e :: l2 ∧
        (∀ e' ∈ l1, ¬(entryDist tx ty e' < magnetRange ∧
          entryDist tx ty e' ≤ d)) ∧
        (∀ e' ∈ l2, ¬(entryDist tx ty e' < magnetRange ∧
          entryDist tx ty e' < d))

/-! ## Concrete instances used by witnesses and counterexamples -/

/-- A disc entry projected exactly onto the aim point. -/
def probeEntry : Entry := (100, 0, 0)

/-- An event trace in which a candidate disc is inside the capture radius
on every render tick while the gun pose toggles off and on again. -/
def lockTrace : List Ev :=
  [Ev.tick [probeEntry],
   Ev.gesture true true 0 0 0,
   Ev.tick [probeEntry],
   Ev.gesture false true 0 0 0,
   Ev.tick [probeEntry],
   Ev.gesture true true 0 0 0,
   Ev.tick [probeEntry]]

/-- Fixed random draws for a spawn (all zero). -/
def spawn0 : SpawnParams :=
  { rands := fun _ => (0, 0), colorIdx := 0, angleR := 0, rotR := 0,
    phaseR := 0, ampR := 0, freqR := 0 }

/-- Fixed random draws for a relocation (all zero). -/
def repo0 : RepoParams :=
  { rands := fun _ => (0, 0), angleR := 0, phaseR := 0 }

/-- The actual schedule of `Game.start()`: the game loop runs its first
`update()` synchronously (one tick, whose top-up loop fills the registry),
and only afterwards do the four staggered spawn timers fire, each calling
`createDisc()` unconditionally; a later tick follows once the startup
window is over. -/
def startupTrace : List RegEv :=
  [RegEv.tick 0 (fun _ => repo0) (fun _ => spawn0),
   RegEv.startSpawn 0 spawn0,
   RegEv.startSpawn 400 spawn0,
   RegEv.startSpawn 800 spawn0,
   RegEv.startSpawn 1200 spawn0,
   RegEv.tick 100000 (fun _ => repo0) (fun _ => spawn0)]

/-- A session state aiming exactly at the origin with the gun pose held
and no previous lock. -/
noncomputable def lockWitState : GameState :=
  { initState 0 0 with targetX := 0, targetY := 0, isGunPose := true }

/-- A concrete aged disc used to instantiate the relocation theorem. -/
def testDisc : Disc :=
  { id := 7, color := 3, points := 100, posX := 0, posY := 0,
    originX := 0, originY := 0, velX := 0, velY := 0, rotationSpeed := 0,
    floatPhase := 0, floatAmplitude := 0, floatFrequency := 0,
    createdAt := 0, scale := 1, rotX := 0, rotY := 0, rotZ := 0 }

/-- Build a frame from an explicit list of landmarks (missing entries
default to the origin). -/
def mkFrame (l : List Landmark) : Frame :=
  fun i => l.getD i.val ⟨0, 0, 0⟩

/-- A landmark frame with degenerate index-finger geometry: the index PIP
(6) and MCP (5) coincide, so the curl-ratio division is by zero; the index
tip is above the PIP and the other three fingers are folded. -/
def degFrame : Frame :=
  mkFrame
    [⟨0.5, 0.9, 0⟩, ⟨0.5, 0.9, 0⟩, ⟨0.4, 0.7, 0⟩, ⟨0.4, 0.6, 0⟩,
     ⟨0.4, 0.5, 0⟩, ⟨0.5, 0.6, 0⟩, ⟨0.5, 0.6, 0⟩, ⟨0.5, 0.45, 0⟩,
     ⟨0.5, 0.3, 0⟩, ⟨0.55, 0.7, 0⟩, ⟨0.55, 0.7, 0⟩, ⟨0.55, 0.75, 0⟩,
     ⟨0.55, 0.8, 0⟩, ⟨0.6, 0.7, 0⟩, ⟨0.6, 0.7, 0⟩, ⟨0.6, 0.75, 0⟩,
     ⟨0.6, 0.8, 0⟩, ⟨0.65, 0.7, 0⟩, ⟨0.65, 0.7, 0⟩, ⟨0.65, 0.75, 0⟩,
     ⟨0.65, 0.8, 0⟩]

/-- A well-formed gun-pose frame with nondegenerate geometry: index
extended (curl ratio 3), the other three fingers folded (wrist-relative
curl ratio 1/2). -/
def gunFrame : Frame :=
  mkFrame
    [⟨0.5, 0.9, 0⟩, ⟨0.5, 0.9, 0⟩, ⟨0.4, 0.7, 0⟩, ⟨0.4, 0.6, 0⟩,
     ⟨0.4, 0.5, 0⟩, ⟨0.5, 0.7, 0⟩, ⟨0.5, 0.6, 0⟩, ⟨0.5, 0.45, 0⟩,
     ⟨0.5, 0.3, 0⟩, ⟨0.55, 0.7, 0⟩, ⟨0.55, 0.7, 0⟩, ⟨0.55, 0.75, 0⟩,
     ⟨0.55, 0.8, 0⟩, ⟨0.6, 0.7, 0⟩, ⟨0.6, 0.7, 0⟩, ⟨0.6, 0.75, 0⟩,
     ⟨0.6, 0.8, 0⟩, ⟨0.65, 0.7, 0⟩, ⟨0.65, 0.7, 0⟩, ⟨0.65, 0.75, 0⟩,
     ⟨0.65, 0.8, 0⟩]

/-! ## Session lemmas -/

lemma updateAccuracy_combo (s : GameState) :
    (updateAccuracy s).combo = s.combo := by
  unfold updateAccuracy; split <;> rfl

lemma hitTarget_combo (now pts : ℤ) (s : GameState) :
    (hitTarget now pts s).combo =
      if now - s.lastHitTime < s.comboTimeout then min (s.combo + 1) 10 else 1 := rfl

lemma hitTarget_combo_mem (now pts : ℤ) (s : GameState) :
    1 ≤ (hitTarget now pts s).combo ∧ (hitTarget now pts s).combo ≤ 10 := by
  rw [hitTarget_combo]; split <;> omega

lemma shoot_combo (now : ℤ) (s : GameState) :
    (shoot now s).combo = s.combo ∨
      (1 ≤ (shoot now s).combo ∧ (shoot now s).combo ≤ 10) := by
  unfold shoot
  split
  · exact Or.inl rfl
  · cases h : s.lockedTarget with
    | some pts =>
        right
        simp only [h, updateAccuracy_combo]
        exact hitTarget_combo_mem _ _ _
    | none =>
        right
        simp only [h, updateAccuracy_combo]
        exact ⟨le_refl 1, by norm_num [missShot]⟩

lemma stepTick_combo (es : List Entry) (s : GameState) :
    (stepTick es s).1.combo = s.combo := by
  unfold stepTick
  cases magnetScan s.targetX s.targetY es with
  | none => rfl
  | some p => obtain ⟨e, d⟩ := p; dsimp only; split <;> rfl

lemma step_combo_cases (s : GameState) (e : Ev) :
    (step s e).1.combo = s.combo ∨
      (1 ≤ (step s e).1.combo ∧ (step s e).1.combo ≤ 10) := by
  cases e with
  | gesture pose thumb fx fy now =>
      have h : (updateGesture pose thumb fx fy now s).1.combo = s.combo ∨
          (1 ≤ (updateGesture pose thumb fx fy now s).1.combo ∧
            (updateGesture pose thumb fx fy now s).1.combo ≤ 10) := by
        cases pose with
        | false => exact Or.inl rfl
        | true =>
            unfold updateGesture
            dsimp only
            split
            · split
              · rcases shoot_combo now
                  { s with isGunPose := true, targetX := fx * s.innerW,
                           targetY := fy * s.innerH } with h | h
                · exact Or.inl h
                · exact Or.inr h
              · exact Or.inl rfl
            · exact Or.inl rfl
      exact h
  | lost => exact Or.inl rfl
  | cooldownEnd => exact Or.inl rfl
  | tick es => exact Or.inl (stepTick_combo es s)

lemma runFrom_combo_inv :
    ∀ (evs : List Ev) (s : GameState), 1 ≤ s.combo → s.combo ≤ 10 →
      1 ≤ (runFrom s evs).combo ∧ (runFrom s evs).combo ≤ 10 := by
  intro evs
  induction evs with
  | nil => intro s h1 h2; exact ⟨h1, h2⟩
  | cons e evs ih =>
      intro s h1 h2
      rw [runFrom]
      rcases step_combo_cases s e with h | h
      · exact ih _ (h ▸ h1) (h ▸ h2)
      · exact ih _ h.1 h.2

lemma hitTarget_comboTimeout (now pts : ℤ) (s : GameState) :
    (hitTarget now pts s).comboTimeout = s.comboTimeout := rfl

lemma updateAccuracy_comboTimeout (s : GameState) :
    (updateAccuracy s).comboTimeout = s.comboTimeout := by
  unfold updateAccuracy; split <;> rfl

lemma missShot_comboTimeout (s : GameState) :
    (missShot s).comboTimeout = s.comboTimeout := rfl

lemma shoot_comboTimeout (now : ℤ) (s : GameState) :
    (shoot now s).comboTimeout = s.comboTimeout := by
  unfold shoot
  split
  · rfl
  · cases h : s.lockedTarget <;>
      simp only [h, updateAccuracy_comboTimeout, hitTarget_comboTimeout,
        missShot_comboTimeout]

lemma stepTick_comboTimeout (es : List Entry) (s : GameState) :
    (stepTick es s).1.comboTimeout = s.comboTimeout := by
  unfold stepTick
  cases magnetScan s.targetX s.targetY es with
  | none => rfl
  | some p => obtain ⟨e, d⟩ := p; dsimp only; split <;> rfl

lemma step_comboTimeout (s : GameState) (e : Ev) :
    (step s e).1.comboTimeout = s.comboTimeout := by
  cases e with
  | gesture pose thumb fx fy now =>
      have h : (updateGesture pose thumb fx fy now s).1.comboTimeout =
          s.comboTimeout := by
        cases pose with
        | false => rfl
        | true =>
            unfold updateGesture
            dsimp only
            split
            · split
              · exact shoot_comboTimeout now _
              · rfl
            · rfl
      exact h
  | lost => rfl
  | cooldownEnd => rfl
  | tick es => exact stepTick_comboTimeout es s

lemma runFrom_comboTimeout :
    ∀ (evs : List Ev) (s : GameState),
      (runFrom s evs).comboTimeout = s.comboTimeout := by
  intro evs
  induction evs with
  | nil => intro s; rfl
  | cons e evs ih => intro s; rw [runFrom, ih, step_comboTimeout]

/-- Claim C1: in every run of the session, `combo` stays within `[1, 10]`
(with `comboTimeout` pinned at 2000 ms); a hit strictly within the timeout
of the previous hit sets `combo` to `min(combo + 1, 10)`, a hit at or
after the timeout resets it to 1, and a fire with no locked target (a
miss) resets it to 1 unconditionally. -/
theorem combo_state_machine_cl1 :
    (∀ (w h : ℝ) (evs : List Ev),
      1 ≤ (run w h evs).combo ∧ (run w h evs).combo ≤ 10) ∧
    (∀ (w h : ℝ) (evs : List Ev), (run w h evs).comboTimeout = 2000) ∧
    (∀ (now pts : ℤ) (s : GameState), now - s.lastHitTime < s.comboTimeout →
      (hitTarget now pts s).combo = min (s.combo + 1) 10) ∧
    (∀ (now pts : ℤ) (s : GameState), s.comboTimeout ≤ now - s.lastHitTime →
      (hitTarget now pts s).combo = 1) ∧
    (∀ (now : ℤ) (s : GameState), s.isShooting = false →
      s.lockedTarget = none → (shoot now s).combo = 1) := by
  refine ⟨?_, ?_, ?_, ?_, ?_⟩
  · intro w h evs
    exact runFrom_combo_inv evs (initState w h) (le_refl 1) (by norm_num [initState])
  · intro w h evs
    rw [run, runFrom_comboTimeout]; rfl
  · intro now pts s hlt
    rw [hitTarget_combo, if_pos hlt]
  · intro now pts s hge
    rw [hitTarget_combo, if_neg (not_lt.mpr hge)]
  · intro now s hsh hlk
    unfold shoot
    rw [hsh]
    simp only [Bool.false_eq_true, if_false, hlk, updateAccuracy_combo]
    rfl

/-- Witness for claim C1 at concrete inputs: a hit at time 0 from the
initial state is within the timeout and increments the combo; a hit at
time 3000 is past the timeout and resets; a shot with no locked target
resets the combo. -/
theorem combo_state_machine_cl1_witness :
    ((0 : ℤ) - (initState 0 0).lastHitTime < (initState 0 0).comboTimeout ∧
      (hitTarget 0 100 (initState 0 0)).combo = min ((initState 0 0).combo + 1) 10) ∧
    ((initState 0 0).comboTimeout ≤ (3000 : ℤ) - (initState 0 0).lastHitTime ∧
      (hitTarget 3000 100 (initState 0 0)).combo = 1) ∧
    ((initState 0 0).isShooting = false ∧ (initState 0 0).lockedTarget = none ∧
      (shoot 5 (initState 0 0)).combo = 1) :=
  ⟨⟨by norm_num [initState],
    combo_state_machine_cl1.2.2.1 0 100 _ (by norm_num [initState])⟩,
   ⟨by norm_num [initState],
    combo_state_machine_cl1.2.2.2.1 3000 100 _ (by norm_num [initState])⟩,
   ⟨rfl, rfl, combo_state_machine_cl1.2.2.2.2 5 _ rfl rfl⟩⟩

/-! ## Accuracy and hit counting (claim C5) -/

lemma updateAccuracy_hits (s : GameState) : (updateAccuracy s).hits = s.hits := by
  unfold updateAccuracy; split <;> rfl

lemma updateAccuracy_shots (s : GameState) :
    (updateAccuracy s).shots = s.shots := by
  unfold updateAccuracy; split <;> rfl

lemma shoot_hits_le (now : ℤ) (s : GameState) (h : s.hits ≤ s.shots) :
    (shoot now s).hits ≤ (shoot now s).shots := by
  unfold shoot
  split
  · exact h
  · dsimp only
    cases hl : s.lockedTarget with
    | some pts =>
        rw [updateAccuracy_hits, updateAccuracy_shots]
        show s.hits + 1 ≤ s.shots + 1
        omega
    | none =>
        rw [updateAccuracy_hits, updateAccuracy_shots]
        show s.hits ≤ s.shots + 1
        omega

lemma stepTick_hits (es : List Entry) (s : GameState) :
    (stepTick es s).1.hits = s.hits := by
  unfold stepTick
  cases magnetScan s.targetX s.targetY es with
  | none => rfl
  | some p => obtain ⟨e, d⟩ := p; dsimp only; split <;> rfl

lemma stepTick_shots (es : List Entry) (s : GameState) :
    (stepTick es s).1.shots = s.shots := by
  unfold stepTick
  cases magnetScan s.targetX s.targetY es with
  | none => rfl
  | some p => obtain ⟨e, d⟩ := p; dsimp only; split <;> rfl

lemma step_hits_le (s : GameState) (e : Ev) (h : s.hits ≤ s.shots) :
    (step s e).1.hits ≤ (step s e).1.shots := by
  cases e with
  | gesture pose thumb fx fy now =>
      have hg : (updateGesture pose thumb fx fy now s).1.hits ≤
          (updateGesture pose thumb fx fy now s).1.shots := by
        cases pose with
        | false => exact h
        | true =>
            unfold updateGesture
            dsimp only
            split
            · split
              · exact shoot_hits_le now _ h
              · exact h
            · exact h
      exact hg
  | lost => exact h
  | cooldownEnd => exact h
  | tick es =>
      show (stepTick es s).1.hits ≤ (stepTick es s).1.shots
      rw [stepTick_hits, stepTick_shots]; exact h

lemma runFrom_hits_le :
    ∀ (evs : List Ev) (s : GameState), s.hits ≤ s.shots →
      (runFrom s evs).hits ≤ (runFrom s evs).shots := by
  intro evs
  induction evs with
  | nil => intro s h; exact h
  | cons e evs ih => intro s h; rw [runFrom]; exact ih _ (step_hits_le s e h)

lemma updateAccuracy_post (s : GameState) (h : s.shots ≠ 0) :
    0 < (updateAccuracy s).shots ∧
    (updateAccuracy s).accuracy =
      some (jsRound (((updateAccuracy s).hits : ℚ) /
        ((updateAccuracy s).shots : ℚ) * 100)) := by
  unfold updateAccuracy
  rw [if_neg h]
  exact ⟨Nat.pos_of_ne_zero h, rfl⟩

/-- Claim C5: in every run of the session `hits ≤ shots`; after every
actually-fired shot (`isShooting` was false) the number of shots is
positive and the displayed accuracy is exactly
`round(hits / shots * 100)`; while `shots = 0`, `updateAccuracy` leaves
the accuracy display untouched. -/
theorem accuracy_session_cl5 :
    (∀ (w h : ℝ) (evs : List Ev),
      (run w h evs).hits ≤ (run w h evs).shots) ∧
    (∀ (now : ℤ) (s : GameState), s.isShooting = false →
      0 < (shoot now s).shots ∧
      (shoot now s).accuracy =
        some (jsRound (((shoot now s).hits : ℚ) /
          ((shoot now s).shots : ℚ) * 100))) ∧
    (∀ s : GameState, s.shots = 0 →
      (updateAccuracy s).accuracy = s.accuracy) := by
  refine ⟨?_, ?_, ?_⟩
  · intro w h evs
    exact runFrom_hits_le evs (initState w h) (le_refl 0)
  · intro now s hsh
    unfold shoot
    rw [hsh]
    simp only [Bool.false_eq_true, if_false]
    cases hl : s.lockedTarget with
    | some pts => exact updateAccuracy_post _ (Nat.succ_ne_zero _)
    | none => exact updateAccuracy_post _ (Nat.succ_ne_zero _)
  · intro s h
    unfold updateAccuracy
    rw [if_pos h]

/-- Witness for claim C5: a shot from the (non-cooldown) initial state
yields one shot and the displayed accuracy `round(0/1*100)`; with zero
shots the accuracy display is untouched. -/
theorem accuracy_session_cl5_witness :
    ((initState 0 0).isShooting = false ∧
      0 < (shoot 5 (initState 0 0)).shots ∧
      (shoot 5 (initState 0 0)).accuracy =
        some (jsRound (((shoot 5 (initState 0 0)).hits : ℚ) /
          ((shoot 5 (initState 0 0)).shots : ℚ) * 100))) ∧
    ((initState 0 0).shots = 0 ∧
      (updateAccuracy (initState 0 0)).accuracy = (initState 0 0).accuracy) :=
  ⟨⟨rfl, accuracy_session_cl5.2.1 5 (initState 0 0) rfl⟩,
   ⟨rfl, accuracy_session_cl5.2.2 (initState 0 0) rfl⟩⟩

/-! ## Trigger edge detector (claim C2) -/

lemma updateAccuracy_isShooting (s : GameState) :
    (updateAccuracy s).isShooting = s.isShooting := by
  unfold updateAccuracy; split <;> rfl

lemma shoot_isShooting (now : ℤ) (s : GameState) :
    (shoot now s).isShooting = true := by
  unfold shoot
  split
  · assumption
  · dsimp only
    cases hl : s.lockedTarget <;>
      · rw [updateAccuracy_isShooting]
        rfl

/-- `updateGesture` with the gun pose active, with the outer conditional
reduced. -/
lemma updateGesture_true (thumb : Bool) (fx fy : ℝ) (now : ℤ)
    (s : GameState) :
    updateGesture true thumb fx fy now s =
      (if !thumb && s.wasThumbUp && !s.isShooting then
        ({ shoot now { s with isGunPose := true, targetX := fx * s.innerW,
                              targetY := fy * s.innerH } with
            wasThumbUp := thumb }, true)
      else
        ({ s with isGunPose := true, targetX := fx * s.innerW,
                  targetY := fy * s.innerH, wasThumbUp := thumb }, false)) := rfl

/-- Claim C2 counterexample: from the initial state (`wasThumbUp = true`),
losing tracking and then re-acquiring the hand with a very first reading
of gun pose + thumb-down fires a shot, although the claim says such a
re-acquisition can never fire; and `onGestureLost` does not force
`wasThumbUp` to `true` — a state that lost tracking with `wasThumbUp =
false` keeps it `false`. -/
theorem trigger_edge_cl2_counterexample :
    (step (step (initState 0 0) Ev.lost).1
      (Ev.gesture true false 0 0 0)).2.fired = true ∧
    (step { initState 0 0 with wasThumbUp := false } Ev.lost).1.wasThumbUp
      = false := by
  exact ⟨rfl, rfl⟩

/-- Claim C2 (amended): a fire happens exactly when a gesture update
carries the gun pose with a thumb-down reading while `wasThumbUp` is true
and `isShooting` is false (so never during the cooldown, and at most once
per up-to-down transition since `wasThumbUp` takes the thumb-down reading
afterwards); a gesture update without the gun pose forces
`wasThumbUp := true`; tracking loss (`onGestureLost`) leaves `wasThumbUp`
unchanged — so re-acquiring the hand with a first reading of thumb-down
fires exactly when `wasThumbUp` was still true from before the loss; and
no event other than a gesture update fires. -/
theorem trigger_edge_cl2 :
    (∀ (s : GameState) (pose thumb : Bool) (fx fy : ℝ) (now : ℤ),
      (step s (Ev.gesture pose thumb fx fy now)).2.fired =
        (pose && !thumb && s.wasThumbUp && !s.isShooting)) ∧
    (∀ (s : GameState) (pose thumb : Bool) (fx fy : ℝ) (now : ℤ),
      (step s (Ev.gesture pose thumb fx fy now)).1.wasThumbUp =
        (if pose then thumb else true)) ∧
    (∀ (s : GameState) (pose thumb : Bool) (fx fy : ℝ) (now : ℤ),
      (step s (Ev.gesture pose thumb fx fy now)).1.isShooting =
        (s.isShooting || (pose && !thumb && s.wasThumbUp))) ∧
    (∀ s : GameState, (step s Ev.lost).1.wasThumbUp = s.wasThumbUp) ∧
    (∀ s : GameState, (step s Ev.lost).2.fired = false) ∧
    (∀ s : GameState, (step s Ev.cooldownEnd).2.fired = false) ∧
    (∀ (s : GameState) (es : List Entry),
      (step s (Ev.tick es)).2.fired = false) := by
  refine ⟨?_, ?_, ?_, fun s => rfl, fun s => rfl, fun s => rfl, ?_⟩
  · intro s pose thumb fx fy now
    show (updateGesture pose thumb fx fy now s).2 = _
    cases pose with
    | false => simp [updateGesture]
    | true =>
        rw [updateGesture_true]
        split
        · rename_i hcond
          simp [hcond]
        · rename_i hcond
          rw [Bool.not_eq_true] at hcond
          simp [hcond]
  · intro s pose thumb fx fy now
    show (updateGesture pose thumb fx fy now s).1.wasThumbUp = _
    cases pose with
    | false => rfl
    | true =>
        rw [updateGesture_true]
        split <;> simp
  · intro s pose thumb fx fy now
    show (updateGesture pose thumb fx fy now s).1.isShooting = _
    cases pose with
    | false => simp [updateGesture]
    | true =>
        rw [updateGesture_true]
        split
        · rename_i hcond
          have hcond' := hcond
          simp only [Bool.and_eq_true, Bool.not_eq_true'] at hcond'
          obtain ⟨⟨ht, hw⟩, hsi⟩ := hcond'
          show (shoot now _).isShooting = _
          rw [shoot_isShooting]
          simp [ht, hw, hsi]
        · rename_i hcond
          rw [Bool.not_eq_true] at hcond
          show s.isShooting = _
          cases hthumb : thumb <;> cases hw : s.wasThumbUp <;>
            cases hsi : s.isShooting <;> simp_all
  · intro s es
    rfl

/-! ## Lock notification (claim C8) -/

lemma updateAccuracy_misc (s : GameState) :
    (updateAccuracy s).wasLocked = s.wasLocked ∧
    (updateAccuracy s).innerW = s.innerW ∧
    (updateAccuracy s).innerH = s.innerH ∧
    (updateAccuracy s).targetX = s.targetX ∧
    (updateAccuracy s).targetY = s.targetY ∧
    (updateAccuracy s).isGunPose = s.isGunPose := by
  unfold updateAccuracy; split <;> exact ⟨rfl, rfl, rfl, rfl, rfl, rfl⟩

lemma shoot_misc (now : ℤ) (s : GameState) :
    (shoot now s).wasLocked = s.wasLocked ∧
    (shoot now s).innerW = s.innerW ∧
    (shoot now s).innerH = s.innerH ∧
    (shoot now s).targetX = s.targetX ∧
    (shoot now s).targetY = s.targetY ∧
    (shoot now s).isGunPose = s.isGunPose := by
  unfold shoot
  split
  · exact ⟨rfl, rfl, rfl, rfl, rfl, rfl⟩
  · dsimp only
    cases hl : s.lockedTarget with
    | some pts =>
        obtain ⟨h1, h2, h3, h4, h5, h6⟩ := updateAccuracy_misc (hitTarget now pts _)
        rw [h1, h2, h3, h4, h5, h6]
        exact ⟨rfl, rfl, rfl, rfl, rfl, rfl⟩
    | none =>
        obtain ⟨h1, h2, h3, h4, h5, h6⟩ := updateAccuracy_misc (missShot _)
        rw [h1, h2, h3, h4, h5, h6]
        exact ⟨rfl, rfl, rfl, rfl, rfl, rfl⟩

lemma step_tick_misc (s : GameState) (es : List Entry) :
    (step s (Ev.tick es)).1.targetX = s.targetX ∧
    (step s (Ev.tick es)).1.targetY = s.targetY ∧
    (step s (Ev.tick es)).1.isGunPose = s.isGunPose ∧
    (step s (Ev.tick es)).1.innerW = s.innerW ∧
    (step s (Ev.tick es)).1.innerH = s.innerH := by
  show (stepTick es s).1.targetX = _ ∧ (stepTick es s).1.targetY = _ ∧
    (stepTick es s).1.isGunPose = _ ∧ (stepTick es s).1.innerW = _ ∧
    (stepTick es s).1.innerH = _
  unfold stepTick
  cases magnetScan s.targetX s.targetY es with
  | none => exact ⟨rfl, rfl, rfl, rfl, rfl⟩
  | some p =>
      obtain ⟨e, d⟩ := p
      dsimp only
      split <;> exact ⟨rfl, rfl, rfl, rfl, rfl⟩

lemma step_tick_wasLocked (s : GameState) (es : List Entry) :
    (step s (Ev.tick es)).1.wasLocked =
      ((magnetScan s.targetX s.targetY es).isSome && s.isGunPose) := by
  show (stepTick es s).1.wasLocked = _
  unfold stepTick
  cases h : magnetScan s.targetX s.targetY es with
  | none => simp [tickNoLock]
  | some p =>
      obtain ⟨e, d⟩ := p
      dsimp only
      cases hp : s.isGunPose with
      | false => simp [hp, tickNoLock]
      | true => simp [hp]

lemma step_tick_lockSound (s : GameState) (es : List Entry) :
    (step s (Ev.tick es)).2.lockSound =
      ((magnetScan s.targetX s.targetY es).isSome && s.isGunPose &&
        !s.wasLocked) := by
  show (stepTick es s).2 = _
  unfold stepTick
  cases h : magnetScan s.targetX s.targetY es with
  | none => simp
  | some p =>
      obtain ⟨e, d⟩ := p
      dsimp only
      cases hp : s.isGunPose with
      | false => simp [hp]
      | true => simp [hp]

lemma step_gesture_misc (s : GameState) (pose thumb : Bool) (fx fy : ℝ)
    (now : ℤ) :
    (step s (Ev.gesture pose thumb fx fy now)).1.wasLocked = s.wasLocked ∧
    (step s (Ev.gesture pose thumb fx fy now)).1.innerW = s.innerW ∧
    (step s (Ev.gesture pose thumb fx fy now)).1.innerH = s.innerH ∧
    (step s (Ev.gesture pose thumb fx fy now)).1.isGunPose = pose ∧
    (step s (Ev.gesture pose thumb fx fy now)).2.lockSound = false := by
  show (updateGesture pose thumb fx fy now s).1.wasLocked = _ ∧
    (updateGesture pose thumb fx fy now s).1.innerW = _ ∧
    (updateGesture pose thumb fx fy now s).1.innerH = _ ∧
    (updateGesture pose thumb fx fy now s).1.isGunPose = _ ∧ _
  cases pose with
  | false => exact ⟨rfl, rfl, rfl, rfl, rfl⟩
  | true =>
      rw [updateGesture_true]
      split
      · obtain ⟨h1, h2, h3, _, _, h6⟩ := shoot_misc now
          { s with isGunPose := true, targetX := fx * s.innerW,
                   targetY := fy * s.innerH }
        exact ⟨h1, h2, h3, h6, rfl⟩
      · exact ⟨rfl, rfl, rfl, rfl, rfl⟩

lemma step_gesture_targets (s : GameState) (pose thumb : Bool) (fx fy : ℝ)
    (now : ℤ) :
    (step s (Ev.gesture pose thumb fx fy now)).1.targetX =
      (if pose then fx * s.innerW else s.targetX) ∧
    (step s (Ev.gesture pose thumb fx fy now)).1.targetY =
      (if pose then fy * s.innerH else s.targetY) := by
  show (updateGesture pose thumb fx fy now s).1.targetX = _ ∧
    (updateGesture pose thumb fx fy now s).1.targetY = _
  cases pose with
  | false => exact ⟨rfl, rfl⟩
  | true =>
      rw [updateGesture_true]
      split
      · obtain ⟨_, _, _, h4, h5, _⟩ := shoot_misc now
          { s with isGunPose := true, targetX := fx * s.innerW,
                   targetY := fy * s.innerH }
        constructor
        · show (shoot now _).targetX = _
          rw [h4]; simp
        · show (shoot now _).targetY = _
          rw [h5]; simp
      · constructor <;> simp

/-- Evaluation of the magnet scan on one candidate that coincides with the
aim point: it is selected (distance 0 is inside the radius). -/
lemma magnetScan_probe (tx ty : ℝ) (hx : tx = 0) (hy : ty = 0) :
    magnetScan tx ty [probeEntry] =
      some (probeEntry, entryDist tx ty probeEntry) := by
  subst hx; subst hy
  have hd : entryDist (0 : ℝ) (0 : ℝ) probeEntry < magnetRange := by
    unfold entryDist screenDist probeEntry magnetRange
    norm_num [Real.sqrt_zero]
  have hc : closerThan none (entryDist (0 : ℝ) (0 : ℝ) probeEntry) := trivial
  unfold magnetScan
  rw [List.foldl_cons, List.foldl_nil]
  exact if_pos ⟨hc, hd⟩

/-- Claim C8 counterexample: along `lockTrace` a candidate disc sits inside
the capture radius on every render tick (the scan always selects it), yet
the lock notification is emitted twice — the emission is keyed on the
combined condition (candidate AND gun pose), not on candidate-in-radius
transitions, so toggling the pose while the candidate stays in radius
re-emits the sound. -/
theorem lock_notification_cl8_counterexample :
    lockSoundCount (initState 0 0) lockTrace = 2 ∧
    (magnetScan 0 0 [probeEntry]).isSome = true := by
  have hprobe : ∀ tx ty : ℝ, tx = 0 → ty = 0 →
      (magnetScan tx ty [probeEntry]).isSome = true := by
    intro tx ty hx hy
    rw [magnetScan_probe tx ty hx hy]
    rfl
  refine ⟨?_, hprobe 0 0 rfl rfl⟩
  -- notation for the repeated events
  set t := Ev.tick [probeEntry] with ht
  set g1 := Ev.gesture true true 0 0 0 with hg1
  set g0 := Ev.gesture false true 0 0 0 with hg0
  set s0 := initState 0 0 with hs0
  have s0X : s0.targetX = 0 := by rw [hs0]; show (0 : ℝ) / 2 = 0; norm_num
  have s0Y : s0.targetY = 0 := by rw [hs0]; show (0 : ℝ) / 2 = 0; norm_num
  have s0W : s0.innerW = 0 := rfl
  have s0H : s0.innerH = 0 := rfl
  have s0P : s0.isGunPose = false := rfl
  have s0L : s0.wasLocked = false := rfl
  -- step 1: tick, pose inactive, no sound
  set s1 := (step s0 t).1 with hs1
  have c1 : (step s0 t).2.lockSound = false := by
    rw [ht, step_tick_lockSound, s0P]; simp
  obtain ⟨s1X, s1Y, s1P, s1W, s1H⟩ := step_tick_misc s0 [probeEntry]
  rw [← ht, ← hs1] at s1X s1Y s1P s1W s1H
  have s1L : s1.wasLocked = false := by
    rw [hs1, ht, step_tick_wasLocked, s0P]; simp
  -- step 2: gesture acquires the pose, no sound from gesture events
  set s2 := (step s1 g1).1 with hs2
  obtain ⟨s2L, s2W, s2H, s2P, c2⟩ := step_gesture_misc s1 true true 0 0 0
  obtain ⟨s2X, s2Y⟩ := step_gesture_targets s1 true true 0 0 0
  rw [← hg1] at s2L s2W s2H s2P c2 s2X s2Y
  rw [← hs2] at s2L s2W s2H s2P s2X s2Y
  have s2X0 : s2.targetX = 0 := by
    rw [s2X]; simp [s1W ▸ s0W]
  have s2Y0 : s2.targetY = 0 := by
    rw [s2Y]; simp [s1H ▸ s0H]
  have s2L0 : s2.wasLocked = false := by rw [s2L, s1L]
  -- step 3: tick with pose and candidate: the sound plays
  set s3 := (step s2 t).1 with hs3
  have c3 : (step s2 t).2.lockSound = true := by
    rw [ht, step_tick_lockSound, s2P, s2L0,
      hprobe s2.targetX s2.targetY s2X0 s2Y0]
    rfl
  obtain ⟨s3X, s3Y, s3P, s3W, s3H⟩ := step_tick_misc s2 [probeEntry]
  rw [← ht, ← hs3] at s3X s3Y s3P s3W s3H
  have s3L : s3.wasLocked = true := by
    rw [hs3, ht, step_tick_wasLocked, s2P,
      hprobe s2.targetX s2.targetY s2X0 s2Y0]
    rfl
  -- step 4: pose drops, candidate still in radius, no sound
  set s4 := (step s3 g0).1 with hs4
  obtain ⟨s4L, s4W, s4H, s4P, c4⟩ := step_gesture_misc s3 false true 0 0 0
  obtain ⟨s4X, s4Y⟩ := step_gesture_targets s3 false true 0 0 0
  rw [← hg0] at s4L s4W s4H s4P c4 s4X s4Y
  rw [← hs4] at s4L s4W s4H s4P s4X s4Y
  have s4X0 : s4.targetX = 0 := by rw [s4X]; simp [s3X, s2X0]
  have s4Y0 : s4.targetY = 0 := by rw [s4Y]; simp [s3Y, s2Y0]
  -- step 5: tick without pose: wasLocked resets, no sound
  set s5 := (step s4 t).1 with hs5
  have c5 : (step s4 t).2.lockSound = false := by
    rw [ht, step_tick_lockSound, s4P]; simp
  obtain ⟨s5X, s5Y, s5P, s5W, s5H⟩ := step_tick_misc s4 [probeEntry]
  rw [← ht, ← hs5] at s5X s5Y s5P s5W s5H
  have s5L : s5.wasLocked = false := by
    rw [hs5, ht, step_tick_wasLocked, s4P]; simp
  -- step 6: pose re-acquired
  set s6 := (step s5 g1).1 with hs6
  obtain ⟨s6L, s6W, s6H, s6P, c6⟩ := step_gesture_misc s5 true true 0 0 0
  obtain ⟨s6X, s6Y⟩ := step_gesture_targets s5 true true 0 0 0
  rw [← hg1] at s6L s6W s6H s6P c6 s6X s6Y
  rw [← hs6] at s6L s6W s6H s6P s6X s6Y
  have s6W0 : s5.innerW = 0 := by rw [s5W, s4W, s3W, s2W, s1W, s0W]
  have s6H0 : s5.innerH = 0 := by rw [s5H, s4H, s3H, s2H, s1H, s0H]
  have s6X0 : s6.targetX = 0 := by rw [s6X]; simp [s6W0]
  have s6Y0 : s6.targetY = 0 := by rw [s6Y]; simp [s6H0]
  have s6L0 : s6.wasLocked = false := by rw [s6L, s5L]
  -- step 7: tick: the sound plays a second time
  have c7 : (step s6 t).2.lockSound = true := by
    rw [ht, step_tick_lockSound, s6P, s6L0,
      hprobe s6.targetX s6.targetY s6X0 s6Y0]
    rfl
  -- assemble the count
  show lockSoundCount s0 (t :: g1 :: t :: g0 :: t :: g1 :: t :: []) = 2
  rw [lockSoundCount, lockSoundCount, lockSoundCount, lockSoundCount,
    lockSoundCount, lockSoundCount, lockSoundCount, lockSoundCount]
  rw [← hs1, ← hs2, ← hs3, ← hs4, ← hs5, ← hs6]
  rw [c1, c2, c3, c4, c5, c6, c7]
  norm_num

/-- Claim C8 (amended): on each render tick the lock notification plays
exactly when the scan selects a candidate AND the gun pose is active AND
`wasLocked` was false; the tick leaves `wasLocked` equal to
(candidate AND pose), so a second consecutive tick that still has a
candidate cannot re-emit; gesture updates, tracking loss and the cooldown
timer never emit the notification.  (The emission is keyed on the
combined candidate-and-pose condition, not on candidate-in-radius
transitions alone.) -/
theorem lock_notification_cl8 :
    (∀ (s : GameState) (es : List Entry),
      (step s (Ev.tick es)).2.lockSound =
        ((magnetScan s.targetX s.targetY es).isSome && s.isGunPose &&
          !s.wasLocked)) ∧
    (∀ (s : GameState) (es : List Entry),
      (step s (Ev.tick es)).1.wasLocked =
        ((magnetScan s.targetX s.targetY es).isSome && s.isGunPose)) ∧
    (∀ (s : GameState) (es es' : List Entry),
      (step s (Ev.tick es)).2.lockSound = true →
        (step (step s (Ev.tick es)).1 (Ev.tick es')).2.lockSound = false) ∧
    (∀ (s : GameState) (pose thumb : Bool) (fx fy : ℝ) (now : ℤ),
      (step s (Ev.gesture pose thumb fx fy now)).2.lockSound = false) ∧
    (∀ s : GameState, (step s Ev.lost).2.lockSound = false) ∧
    (∀ s : GameState, (step s Ev.cooldownEnd).2.lockSound = false) := by
  refine ⟨step_tick_lockSound, step_tick_wasLocked, ?_, ?_, fun s => rfl,
    fun s => rfl⟩
  · intro s es es' hfire
    rw [step_tick_lockSound] at hfire
    simp only [Bool.and_eq_true, Bool.not_eq_true'] at hfire
    obtain ⟨⟨hsome, hpose⟩, hunlocked⟩ := hfire
    have hw : (step s (Ev.tick es)).1.wasLocked = true := by
      rw [step_tick_wasLocked, hsome, hpose]; rfl
    rw [step_tick_lockSound, hw]
    simp
  · intro s pose thumb fx fy now
    exact (step_gesture_misc s pose thumb fx fy now).2.2.2.2

/-- Witness for claim C8's consecutive-tick conjunct at concrete inputs:
with the pose active, an aimed-at candidate and no previous lock, the
first tick emits the notification and the immediately following tick does
not. -/
theorem lock_notification_cl8_witness :
    (step lockWitState (Ev.tick [probeEntry])).2.lockSound = true ∧
    (step (step lockWitState (Ev.tick [probeEntry])).1
      (Ev.tick [probeEntry])).2.lockSound = false := by
  have h1 : (step lockWitState (Ev.tick [probeEntry])).2.lockSound = true := by
    rw [step_tick_lockSound]
    rw [magnetScan_probe lockWitState.targetX lockWitState.targetY rfl rfl]
    rfl
  exact ⟨h1, lock_notification_cl8.2.2.1 _ [probeEntry] [probeEntry] h1⟩

/-! ## Registry lemmas (claims C3 and C9) -/

lemma updateGo_length (now : ℤ) (rp : ℕ → RepoParams) :
    ∀ (rest : List Disc) (i : ℕ) (done : List Disc),
      (updateGo now rp i done rest).length = done.length + rest.length := by
  intro rest
  induction rest with
  | nil => intro i done; rw [updateGo]; simp
  | cons d rest ih =>
      intro i done
      rw [updateGo]
      rw [ih]
      simp
      omega

lemma updateDiscs_length (now : ℤ) (rp : ℕ → RepoParams) (l : List Disc) :
    (updateDiscs now rp l).length = l.length := by
  unfold updateDiscs
  rw [updateGo_length]
  simp

lemma topUp_length_aux (sp : ℕ → SpawnParams) (now : ℤ) :
    ∀ (n k : ℕ) (s : RegState), maxCount - s.discs.length ≤ n →
      (topUp sp now k s).discs.length = max maxCount s.discs.length := by
  intro n
  induction n with
  | zero =>
      intro k s h
      rw [topUp]
      have hge : ¬ s.discs.length < maxCount := by omega
      rw [if_neg hge]
      omega
  | succ n ih =>
      intro k s h
      rw [topUp]
      by_cases hlt : s.discs.length < maxCount
      · rw [if_pos hlt]
        rw [ih]
        · simp only [List.length_append, List.length_cons, List.length_nil]
          omega
        · simp only [List.length_append, List.length_cons, List.length_nil]
          omega
      · rw [if_neg hlt]
        omega

lemma topUp_length (sp : ℕ → SpawnParams) (now : ℤ) (k : ℕ) (s : RegState) :
    (topUp sp now k s).discs.length = max maxCount s.discs.length :=
  topUp_length_aux sp now (maxCount - s.discs.length) k s (le_refl _)

lemma regStep_tick_length (s : RegState) (now : ℤ) (rp : ℕ → RepoParams)
    (sp : ℕ → SpawnParams) :
    (regStep s (RegEv.tick now rp sp)).discs.length =
      max maxCount s.discs.length := by
  show (topUp sp now 0 ⟨s.nextId, updateDiscs now rp s.discs⟩).discs.length = _
  rw [topUp_length]
  simp [updateDiscs_length]

lemma regStep_startSpawn_length (s : RegState) (now : ℤ) (p : SpawnParams) :
    (regStep s (RegEv.startSpawn now p)).discs.length = s.discs.length + 1 := by
  show (s.discs ++ [mkDisc s.discs p now s.nextId]).length = _
  simp

/-- Claim C3 (the code violates it): the first render tick of the game
loop runs synchronously inside `Game.start()` and its top-up loop already
fills the registry to `maxCount = 4`; the four staggered spawn timers then
fire unconditionally, so once the startup window is over the registry
holds 8 live discs — twice `maxCount` — and a later tick keeps all 8. -/
theorem registry_count_cl3 :
    maxCount = 4 ∧ (runReg startupTrace).discs.length = 8 ∧
      maxCount < (runReg startupTrace).discs.length := by
  have hlen : (runReg startupTrace).discs.length = 8 := by
    unfold runReg startupTrace
    simp only [List.foldl_cons, List.foldl_nil]
    rw [regStep_tick_length, regStep_startSpawn_length,
      regStep_startSpawn_length, regStep_startSpawn_length,
      regStep_startSpawn_length, regStep_tick_length]
    simp [maxCount]
  exact ⟨rfl, hlen, by rw [hlen]; norm_num [maxCount]⟩

lemma discDrift_createdAt (now : ℤ) (d : Disc) :
    (discDrift now d).createdAt = d.createdAt := rfl

lemma discDrift_id (now : ℤ) (d : Disc) : (discDrift now d).id = d.id := rfl

lemma discDrift_points (now : ℤ) (d : Disc) :
    (discDrift now d).points = d.points := rfl

lemma repositionDisc_id (ctx : List Disc) (p : RepoParams) (now : ℤ)
    (d : Disc) : (repositionDisc ctx p now d).id = d.id := rfl

lemma repositionDisc_points (ctx : List Disc) (p : RepoParams) (now : ℤ)
    (d : Disc) : (repositionDisc ctx p now d).points = d.points := rfl

lemma updateGo_map_pres {α : Type} (now : ℤ) (rp : ℕ → RepoParams)
    (f : Disc → α) (hf1 : ∀ (n : ℤ) (d : Disc), f (discDrift n d) = f d)
    (hf2 : ∀ (ctx : List Disc) (p : RepoParams) (n : ℤ) (d : Disc),
      f (repositionDisc ctx p n d) = f d) :
    ∀ (rest : List Disc) (i : ℕ) (done : List Disc),
      (updateGo now rp i done rest).map f = done.map f ++ rest.map f := by
  intro rest
  induction rest with
  | nil => intro i done; rw [updateGo]; simp
  | cons d rest ih =>
      intro i done
      rw [updateGo]
      rw [ih]
      simp only [List.map_append, List.map_cons, List.map_nil,
        List.append_assoc, List.nil_append, List.singleton_append]
      congr 1
      congr 1
      split
      · rw [hf2, hf1]
      · rw [hf1]

/-- Claim C9: when a disc's age exceeds the lifetime threshold, the update
loop relocates it in place via `repositionDisc`: the same entity survives
with a new origin, a new float phase, a new drift direction and a reset
creation timestamp, while its identity, color and point value are
unchanged; the disc loop never removes or recreates entities (it preserves
the identity sequence and the point values of the whole registry). -/
theorem reposition_cl9 :
    (∀ (discs : List Disc) (p : RepoParams) (now : ℤ) (d : Disc),
      (repositionDisc discs p now d).id = d.id ∧
      (repositionDisc discs p now d).color = d.color ∧
      (repositionDisc discs p now d).points = d.points ∧
      (repositionDisc discs p now d).createdAt = now ∧
      (repositionDisc discs p now d).originX = (choosePos discs p.rands).1 ∧
      (repositionDisc discs p now d).originY = (choosePos discs p.rands).2 ∧
      (repositionDisc discs p now d).floatPhase = p.phaseR * (2 * Real.pi) ∧
      (repositionDisc discs p now d).velX =
        Real.cos (p.angleR * (2 * Real.pi)) * floatSpeed ∧
      (repositionDisc discs p now d).velY =
        Real.sin (p.angleR * (2 * Real.pi)) * floatSpeed) ∧
    (∀ (now : ℤ) (rp : ℕ → RepoParams) (l : List Disc),
      (updateDiscs now rp l).map Disc.id = l.map Disc.id ∧
      (updateDiscs now rp l).map Disc.points = l.map Disc.points) ∧
    (∀ (now : ℤ) (rp : ℕ → RepoParams) (i : ℕ) (done rest : List Disc)
      (d : Disc), lifeTime < now - d.createdAt →
      updateGo now rp i done (d :: rest) =
        updateGo now rp (i + 1)
          (done ++ [repositionDisc (done ++ discDrift now d :: rest) (rp i)
            now (discDrift now d)]) rest) := by
  refine ⟨?_, ?_, ?_⟩
  · intro discs p now d
    exact ⟨rfl, rfl, rfl, rfl, rfl, rfl, rfl, rfl, rfl⟩
  · intro now rp l
    constructor
    · unfold updateDiscs
      rw [updateGo_map_pres now rp Disc.id discDrift_id repositionDisc_id]
      simp
    · unfold updateDiscs
      rw [updateGo_map_pres now rp Disc.points discDrift_points
        repositionDisc_points]
      simp
  · intro now rp i done rest d hage
    rw [updateGo]
    rw [discDrift_createdAt, if_pos hage]

/-- Witness for claim C9 at concrete inputs: a disc created at time 0 and
ticked at time 9000 has exceeded the 8000 ms lifetime, so the loop step
relocates it in place. -/
theorem reposition_cl9_witness :
    lifeTime < (9000 : ℤ) - testDisc.createdAt ∧
    updateGo 9000 (fun _ => repo0) 0 [] [testDisc] =
      updateGo 9000 (fun _ => repo0) (0 + 1)
        ([] ++ [repositionDisc ([] ++ discDrift 9000 testDisc :: [])
          ((fun _ : ℕ => repo0) 0) 9000 (discDrift 9000 testDisc)]) [] :=
  ⟨by norm_num [testDisc, lifeTime],
   reposition_cl9.2.2 9000 (fun _ => repo0) 0 [] [] testDisc
     (by norm_num [testDisc, lifeTime])⟩

/-! ## Magnetic acquisition lemmas (claim C6) -/

open Classical in
lemma scanInv_step (tx ty : ℝ) (processed : List Entry)
    (acc : Option (Entry × ℝ)) (hinv : scanInv tx ty processed acc)
    (e : Entry) :
    scanInv tx ty (processed ++ [e])
      (if closerThan acc (entryDist tx ty e) ∧
          entryDist tx ty e < magnetRange
       then some (e, entryDist tx ty e) else acc) := by
  by_cases hc : closerThan acc (entryDist tx ty e) ∧
      entryDist tx ty e < magnetRange
  · rw [if_pos hc]
    refine ⟨rfl, hc.2, processed, [], rfl, ?_, by simp⟩
    rintro e' he' ⟨hr, hle⟩
    cases acc with
    | none => exact (hinv e' he') hr
    | some p =>
        obtain ⟨ep, dp⟩ := p
        obtain ⟨hd, hdr, l1, l2, hsplit, h1, h2⟩ := hinv
        have hlt : entryDist tx ty e < dp := hc.1
        rw [hsplit] at he'
        rcases List.mem_append.mp he' with h | h
        · exact h1 e' h ⟨hr, le_of_lt (lt_of_le_of_lt hle hlt)⟩
        · rcases List.mem_cons.mp h with heq | h
          · subst heq
            rw [← hd] at hle
            exact absurd (lt_of_le_of_lt hle hlt) (lt_irrefl dp)
          · exact h2 e' h ⟨hr, lt_of_le_of_lt hle hlt⟩
  · rw [if_neg hc]
    cases acc with
    | none =>
        intro e' he'
        rcases List.mem_append.mp he' with h | h
        · exact hinv e' h
        · have he : e' = e := by simpa using h
          subst he
          intro hr
          exact hc ⟨trivial, hr⟩
    | some p =>
        obtain ⟨ep, dp⟩ := p
        obtain ⟨hd, hdr, l1, l2, hsplit, h1, h2⟩ := hinv
        refine ⟨hd, hdr, l1, l2 ++ [e], by rw [hsplit]; simp, h1, ?_⟩
        intro e' he'
        rcases List.mem_append.mp he' with h | h
        · exact h2 e' h
        · have he : e' = e := by simpa using h
          subst he
          rintro ⟨hr, hlt⟩
          exact hc ⟨hlt, hr⟩

lemma magnetScan_inv (tx ty : ℝ) (entries : List Entry) :
    scanInv tx ty entries (magnetScan tx ty entries) := by
  classical
  suffices h : ∀ (l processed : List Entry) (acc : Option (Entry × ℝ)),
      scanInv tx ty processed acc →
      scanInv tx ty (processed ++ l)
        (l.foldl (fun acc e =>
          let d := entryDist tx ty e
          if closerThan acc d ∧ d < magnetRange then some (e, d) else acc)
          acc) by
    have h0 : scanInv tx ty [] (none : Option (Entry × ℝ)) := by
      intro e he
      simp at he
    have := h entries [] none h0
    simpa [magnetScan] using this
  intro l
  induction l with
  | nil => intro processed acc h; simpa using h
  | cons e l ih =>
      intro processed acc h
      rw [List.foldl_cons]
      have h2 := scanInv_step tx ty processed acc h e
      have h3 := ih (processed ++ [e]) _ h2
      simpa [List.append_assoc] using h3

/-- Claim C6: the per-frame scan selects only targets strictly inside the
capture radius (never at or beyond it), and among the in-radius targets a
minimum-distance one, breaking ties by iteration order (everything before
the selection is out of radius or strictly farther); whenever some entry
is in radius, something is selected.  The blend strength is
`(1 - distance/range) * strength`: it is 0 exactly at the radius, equals
the configured maximum 0.6 at distance 0 and tends to it as the distance
tends to 0; and on a tick with the gun pose active the crosshair is
smoothed toward the aim point blended by exactly that strength, with the
selected disc becoming the locked target. -/
theorem magnet_acquisition_cl6 :
    (∀ (tx ty : ℝ) (entries : List Entry) (e : Entry) (d : ℝ),
      magnetScan tx ty entries = some (e, d) →
        d = entryDist tx ty e ∧ d < magnetRange ∧
        (∀ e' ∈ entries, entryDist tx ty e' < magnetRange →
          d ≤ entryDist tx ty e') ∧
        ∃ l1 l2, entries = l1 ++ e :: l2 ∧
          (∀ e' ∈ l1, ¬(entryDist tx ty e' < magnetRange ∧
            entryDist tx ty e' ≤ d))) ∧
    (∀ (tx ty : ℝ) (entries : List Entry),
      (∃ e ∈ entries, entryDist tx ty e < magnetRange) →
        magnetScan tx ty entries ≠ none) ∧
    (∀ d : ℝ, magnetStrength d = (1 - d / magnetRange) * magnetStrengthMax) ∧
    magnetStrength magnetRange = 0 ∧
    magnetStrength 0 = magnetStrengthMax ∧
    Filter.Tendsto magnetStrength (nhds 0) (nhds magnetStrengthMax) ∧
    (∀ (s : GameState) (es : List Entry) (e : Entry) (d : ℝ),
      magnetScan s.targetX s.targetY es = some (e, d) → s.isGunPose = true →
        (step s (Ev.tick es)).1.crosshairX =
          s.crosshairX + ((s.targetX + (e.2.1 - s.targetX) * magnetStrength d)
            - s.crosshairX) * smoothing ∧
        (step s (Ev.tick es)).1.lockedTarget = some e.1) := by
  refine ⟨?_, ?_, fun d => rfl, ?_, ?_, ?_, ?_⟩
  · intro tx ty entries e d hscan
    have hinv := magnetScan_inv tx ty entries
    rw [hscan] at hinv
    obtain ⟨hd, hdr, l1, l2, hsplit, h1, h2⟩ := hinv
    refine ⟨hd, hdr, ?_, l1, l2, hsplit, h1⟩
    intro e' he' hr
    rw [hsplit] at he'
    rcases List.mem_append.mp he' with h | h
    · by_contra hlt
      exact h1 e' h ⟨hr, le_of_lt (lt_of_not_le hlt)⟩
    · rcases List.mem_cons.mp h with heq | h
      · subst heq
        exact le_of_eq hd
      · by_contra hlt
        exact h2 e' h ⟨hr, lt_of_not_le hlt⟩
  · rintro tx ty entries ⟨e, he, hr⟩ hnone
    have hinv := magnetScan_inv tx ty entries
    rw [hnone] at hinv
    exact hinv e he hr
  · show (1 - magnetRange / magnetRange) * magnetStrengthMax = 0
    norm_num [magnetRange]
  · show (1 - 0 / magnetRange) * magnetStrengthMax = magnetStrengthMax
    norm_num
  · have hcont : Continuous magnetStrength := by
      unfold magnetStrength
      exact (continuous_const.sub (continuous_id.div_const magnetRange)).mul
        continuous_const
    have h := hcont.tendsto 0
    have h0 : magnetStrength 0 = magnetStrengthMax := by
      show (1 - 0 / magnetRange) * magnetStrengthMax = magnetStrengthMax
      norm_num
    rw [h0] at h
    exact h
  · intro s es e d hscan hp
    show (stepTick es s).1.crosshairX = _ ∧ (stepTick es s).1.lockedTarget = _
    unfold stepTick
    rw [hscan]
    dsimp only
    rw [if_pos hp]
    exact ⟨rfl, rfl⟩

/-- Witness for claim C6 at a concrete input: a single candidate at the
aim point is selected, lies strictly inside the radius, and with the gun
pose active it becomes the locked target. -/
theorem magnet_acquisition_cl6_witness :
    magnetScan lockWitState.targetX lockWitState.targetY [probeEntry] =
      some (probeEntry,
        entryDist lockWitState.targetX lockWitState.targetY probeEntry) ∧
    lockWitState.isGunPose = true ∧
    (step lockWitState (Ev.tick [probeEntry])).1.lockedTarget =
      some probeEntry.1 ∧
    entryDist lockWitState.targetX lockWitState.targetY probeEntry <
      magnetRange := by
  have hscan := magnetScan_probe lockWitState.targetX lockWitState.targetY
    rfl rfl
  exact ⟨hscan, rfl,
    (magnet_acquisition_cl6.2.2.2.2.2.2 lockWitState [probeEntry] probeEntry
      _ hscan rfl).2,
    (magnet_acquisition_cl6.1 lockWitState.targetX lockWitState.targetY
      [probeEntry] probeEntry _ hscan).2.1⟩

/-! ## Classifier lemmas (claims C4, C7, C10) -/

lemma distance_self (p : Landmark) : distance p p = 0 := by
  unfold distance
  simp

lemma distance_vert (x y1 y2 : ℝ) :
    distance ⟨x, y1, 0⟩ ⟨x, y2, 0⟩ = |y1 - y2| := by
  unfold distance
  rw [show (x - x) ^ 2 + (y1 - y2) ^ 2 + ((0 : ℝ) - 0) ^ 2 = (y1 - y2) ^ 2
    by ring]
  exact Real.sqrt_sq_eq_abs _

lemma jdiv_of_ne (a b : ℝ) (hb : b ≠ 0) : jdiv a b = JSNum.fin (a / b) := by
  unfold jdiv
  rw [if_neg hb]

lemma jdiv_pos_zero (a : ℝ) (ha : 0 < a) : jdiv a 0 = JSNum.posInf := by
  unfold jdiv
  rw [if_pos rfl, if_neg (ne_of_gt ha), if_pos ha]

lemma confidence_bounds (lm : Frame) :
    confidence lm ∈ ({0, 0.2, 0.4, 0.6, 0.8, 1} : Set ℝ) ∧
    0 ≤ confidence lm ∧ confidence lm ≤ 1 := by
  rcases Classical.em (indexExtended lm) with h1 | h1 <;>
    rcases Classical.em (middleFolded lm) with h2 | h2 <;>
      rcases Classical.em (ringFolded lm) with h3 | h3 <;>
        rcases Classical.em (pinkyFolded lm) with h4 | h4 <;>
          · simp only [confidence, h1, h2, h3, h4, if_true, if_false,
              Set.mem_insert_iff, Set.mem_singleton_iff]
            norm_num

/-- Claim C4 counterexample: the frame `degFrame` has coincident index
PIP and MCP joints (zero joint distance), yet the classifier still
reports the gun pose: the curl-ratio division by zero yields `+Infinity`,
which passes the `> 0.8` extension test, so degenerate geometry is not
treated as "gesture not recognized". -/
theorem nan_guard_cl4_counterexample :
    distance (degFrame 6) (degFrame 5) = 0 ∧ isGunPose degFrame := by
  have h65 : degFrame 6 = degFrame 5 := rfl
  have hzero : distance (degFrame 6) (degFrame 5) = 0 := by
    rw [h65, distance_self]
  have hpos : 0 < distance (degFrame 8) (degFrame 6) := by
    rw [show degFrame 8 = (⟨0.5, 0.3, 0⟩ : Landmark) from rfl,
      show degFrame 6 = (⟨0.5, 0.6, 0⟩ : Landmark) from rfl, distance_vert]
    norm_num
  have hcurl : indexCurl degFrame = JSNum.posInf := by
    unfold indexCurl
    rw [hzero]
    exact jdiv_pos_zero _ hpos
  have hext : indexExtended degFrame := by
    constructor
    · rw [hcurl]; trivial
    · show (0.3 : ℝ) < 0.6
      norm_num
  have hm : middleFolded degFrame := Or.inr (by show (0.7 : ℝ) < 0.8; norm_num)
  have hr : ringFolded degFrame := Or.inr (by show (0.7 : ℝ) < 0.8; norm_num)
  have hp : pinkyFolded degFrame := Or.inr (by show (0.7 : ℝ) < 0.8; norm_num)
  have hof : othersFolded degFrame = 3 := by
    unfold othersFolded
    rw [if_pos hm, if_pos hr, if_pos hp]
  exact ⟨hzero, hext, by rw [hof]; omega⟩

/-- Claim C4 (amended): non-finite values never reach the published
confidence or fingertip position — the confidence is a boolean-gated sum
that always lands in {0, 0.2, 0.4, 0.6, 0.8, 1} ⊆ [0, 1], and the smoothed
fingertip stays within [0, 1]² whenever the landmarks and the previous
smoothed position are normalized; a zero joint distance makes the curl
ratio `+Infinity`, which passes the `> 0.8` test — so degenerate geometry
is *not* uniformly treated as "gesture not recognized" (see the
counterexample). -/
theorem nan_guard_cl4 :
    (∀ lm : Frame,
      confidence lm ∈ ({0, 0.2, 0.4, 0.6, 0.8, 1} : Set ℝ) ∧
      0 ≤ confidence lm ∧ confidence lm ≤ 1) ∧
    (∀ (s : TrackerState) (lm : Frame),
      0 ≤ (lm 8).x → (lm 8).x ≤ 1 → 0 ≤ (lm 8).y → (lm 8).y ≤ 1 →
      0 ≤ s.smoothed.1 → s.smoothed.1 ≤ 1 →
      0 ≤ s.smoothed.2 → s.smoothed.2 ≤ 1 →
      (0 ≤ (processResults s (some lm)).fingerTip.1 ∧
        (processResults s (some lm)).fingerTip.1 ≤ 1) ∧
      (0 ≤ (processResults s (some lm)).fingerTip.2 ∧
        (processResults s (some lm)).fingerTip.2 ≤ 1)) ∧
    (∀ a : ℝ, 0 < a → jdiv a 0 = JSNum.posInf) ∧
    JSNum.posInf.gtR 0.8 := by
  refine ⟨confidence_bounds, ?_, jdiv_pos_zero, trivial⟩
  intro s lm h1 h2 h3 h4 h5 h6 h7 h8
  have hsf : smoothingFactor = 0.4 := rfl
  constructor
  · constructor
    · show 0 ≤ s.smoothed.1 + (1 - (lm 8).x - s.smoothed.1) * smoothingFactor
      rw [hsf]; linarith
    · show s.smoothed.1 + (1 - (lm 8).x - s.smoothed.1) * smoothingFactor ≤ 1
      rw [hsf]; linarith
  · constructor
    · show 0 ≤ s.smoothed.2 + ((lm 8).y - s.smoothed.2) * smoothingFactor
      rw [hsf]; linarith
    · show s.smoothed.2 + ((lm 8).y - s.smoothed.2) * smoothingFactor ≤ 1
      rw [hsf]; linarith

/-- Witness for claim C4 at concrete inputs: the normalized frame
`gunFrame` and the initial tracker state satisfy the hypotheses, and a
positive numerator over a zero distance gives `+Infinity`. -/
theorem nan_guard_cl4_witness :
    ((0 : ℝ) ≤ (gunFrame 8).x ∧ (gunFrame 8).x ≤ 1 ∧
      (0 : ℝ) ≤ (gunFrame 8).y ∧ (gunFrame 8).y ≤ 1 ∧
      (0 : ℝ) ≤ initTracker.smoothed.1 ∧ initTracker.smoothed.1 ≤ 1 ∧
      (0 : ℝ) ≤ initTracker.smoothed.2 ∧ initTracker.smoothed.2 ≤ 1) ∧
    ((0 ≤ (processResults initTracker (some gunFrame)).fingerTip.1 ∧
      (processResults initTracker (some gunFrame)).fingerTip.1 ≤ 1) ∧
     (0 ≤ (processResults initTracker (some gunFrame)).fingerTip.2 ∧
      (processResults initTracker (some gunFrame)).fingerTip.2 ≤ 1)) ∧
    ((0 : ℝ) < 5 ∧ jdiv 5 0 = JSNum.posInf) := by
  have hx0 : (0 : ℝ) ≤ (gunFrame 8).x := by show (0 : ℝ) ≤ 0.5; norm_num
  have hx1 : (gunFrame 8).x ≤ 1 := by show (0.5 : ℝ) ≤ 1; norm_num
  have hy0 : (0 : ℝ) ≤ (gunFrame 8).y := by show (0 : ℝ) ≤ 0.3; norm_num
  have hy1 : (gunFrame 8).y ≤ 1 := by show (0.3 : ℝ) ≤ 1; norm_num
  have hs0 : (0 : ℝ) ≤ initTracker.smoothed.1 := by
    show (0 : ℝ) ≤ 0.5; norm_num
  have hs1 : initTracker.smoothed.1 ≤ 1 := by show (0.5 : ℝ) ≤ 1; norm_num
  have ht0 : (0 : ℝ) ≤ initTracker.smoothed.2 := by
    show (0 : ℝ) ≤ 0.5; norm_num
  have ht1 : initTracker.smoothed.2 ≤ 1 := by show (0.5 : ℝ) ≤ 1; norm_num
  exact ⟨⟨hx0, hx1, hy0, hy1, hs0, hs1, ht0, ht1⟩,
    nan_guard_cl4.2.1 initTracker gunFrame hx0 hx1 hy0 hy1 hs0 hs1 ht0 ht1,
    ⟨by norm_num, nan_guard_cl4.2.2.1 5 (by norm_num)⟩⟩

/-- Claim C7: on every frame whose curl-ratio divisions are nondegenerate
(nonzero joint distances), the classifier's verdict is exactly the spec's
formula — index extended (ratio > 0.8 and tip above first joint) and at
least 2 of the 3 other fingers folded (wrist-relative ratio < 1.3 or tip
below first joint) — and the published confidence is exactly
0.4·[extended] + 0.2 per folded finger, which never exceeds 1. -/
theorem classifier_cl7 :
    (∀ lm : Frame,
      distance (lm 6) (lm 5) ≠ 0 →
      distance (lm 10) (lm 0) ≠ 0 →
      distance (lm 14) (lm 0) ≠ 0 →
      distance (lm 18) (lm 0) ≠ 0 →
      (isGunPose lm ↔ specGunPose lm) ∧ confidence lm = specConfidence lm) ∧
    (∀ lm : Frame, confidence lm ≤ 1) := by
  classical
  constructor
  · intro lm hb1 hb2 hb3 hb4
    have hIdx : indexExtended lm ↔ specIndexExtended lm := by
      unfold indexExtended specIndexExtended indexCurl
      rw [jdiv_of_ne _ _ hb1]
      rfl
    have hMid : middleFolded lm ↔ specFolded (lm 12) (lm 10) (lm 0) := by
      unfold middleFolded specFolded middleCurl
      rw [jdiv_of_ne _ _ hb2]
      rfl
    have hRing : ringFolded lm ↔ specFolded (lm 16) (lm 14) (lm 0) := by
      unfold ringFolded specFolded ringCurl
      rw [jdiv_of_ne _ _ hb3]
      rfl
    have hPinky : pinkyFolded lm ↔ specFolded (lm 20) (lm 18) (lm 0) := by
      unfold pinkyFolded specFolded pinkyCurl
      rw [jdiv_of_ne _ _ hb4]
      rfl
    have cm : (if middleFolded lm then (1 : ℕ) else 0) =
        if specFolded (lm 12) (lm 10) (lm 0) then 1 else 0 :=
      if_congr hMid rfl rfl
    have cr : (if ringFolded lm then (1 : ℕ) else 0) =
        if specFolded (lm 16) (lm 14) (lm 0) then 1 else 0 :=
      if_congr hRing rfl rfl
    have cp : (if pinkyFolded lm then (1 : ℕ) else 0) =
        if specFolded (lm 20) (lm 18) (lm 0) then 1 else 0 :=
      if_congr hPinky rfl rfl
    have cm2 : (if middleFolded lm then (0.2 : ℝ) else 0) =
        if specFolded (lm 12) (lm 10) (lm 0) then 0.2 else 0 :=
      if_congr hMid rfl rfl
    have cr2 : (if ringFolded lm then (0.2 : ℝ) else 0) =
        if specFolded (lm 16) (lm 14) (lm 0) then 0.2 else 0 :=
      if_congr hRing rfl rfl
    have cp2 : (if pinkyFolded lm then (0.2 : ℝ) else 0) =
        if specFolded (lm 20) (lm 18) (lm 0) then 0.2 else 0 :=
      if_congr hPinky rfl rfl
    have ci2 : (if indexExtended lm then (0.4 : ℝ) else 0) =
        if specIndexExtended lm then 0.4 else 0 :=
      if_congr hIdx rfl rfl
    constructor
    · unfold isGunPose specGunPose othersFolded
      rw [cm, cr, cp]
      exact and_congr hIdx Iff.rfl
    · unfold confidence specConfidence
      rw [ci2, cm2, cr2, cp2]
  · intro lm
    exact (confidence_bounds lm).2.2

/-- Witness for claim C7 at the concrete nondegenerate frame `gunFrame`:
the four joint distances are nonzero, so the source classifier and the
spec formula agree there. -/
theorem classifier_cl7_witness :
    (distance (gunFrame 6) (gunFrame 5) ≠ 0 ∧
      distance (gunFrame 10) (gunFrame 0) ≠ 0 ∧
      distance (gunFrame 14) (gunFrame 0) ≠ 0 ∧
      distance (gunFrame 18) (gunFrame 0) ≠ 0) ∧
    ((isGunPose gunFrame ↔ specGunPose gunFrame) ∧
      confidence gunFrame = specConfidence gunFrame) := by
  have h1 : distance (gunFrame 6) (gunFrame 5) ≠ 0 := by
    rw [show gunFrame 6 = (⟨0.5, 0.6, 0⟩ : Landmark) from rfl,
      show gunFrame 5 = (⟨0.5, 0.7, 0⟩ : Landmark) from rfl, distance_vert]
    norm_num
  have h2 : distance (gunFrame 10) (gunFrame 0) ≠ 0 := by
    have : (0 : ℝ) < distance (gunFrame 10) (gunFrame 0) := by
      rw [show gunFrame 10 = (⟨0.55, 0.7, 0⟩ : Landmark) from rfl,
        show gunFrame 0 = (⟨0.5, 0.9, 0⟩ : Landmark) from rfl]
      unfold distance
      apply Real.sqrt_pos.mpr
      norm_num
    exact ne_of_gt this
  have h3 : distance (gunFrame 14) (gunFrame 0) ≠ 0 := by
    have : (0 : ℝ) < distance (gunFrame 14) (gunFrame 0) := by
      rw [show gunFrame 14 = (⟨0.6, 0.7, 0⟩ : Landmark) from rfl,
        show gunFrame 0 = (⟨0.5, 0.9, 0⟩ : Landmark) from rfl]
      unfold distance
      apply Real.sqrt_pos.mpr
      norm_num
    exact ne_of_gt this
  have h4 : distance (gunFrame 18) (gunFrame 0) ≠ 0 := by
    have : (0 : ℝ) < distance (gunFrame 18) (gunFrame 0) := by
      rw [show gunFrame 18 = (⟨0.65, 0.7, 0⟩ : Landmark) from rfl,
        show gunFrame 0 = (⟨0.5, 0.9, 0⟩ : Landmark) from rfl]
      unfold distance
      apply Real.sqrt_pos.mpr
      norm_num
    exact ne_of_gt this
  exact ⟨⟨h1, h2, h3, h4⟩, classifier_cl7.1 gunFrame h1 h2 h3 h4⟩

/-- Claim C10: on a frame with no detected hand, `processResults` changes
only `isGunPose` (to false), `confidence` (to 0) and `landmarks` (to
null) — the smoothed fingertip position, the smoother state and the thumb
flag keep their last detected values — and the game's tracking-lost
handler leaves the aim target coordinates untouched while clearing the
pose. -/
theorem tracking_lost_cl10 :
    (∀ s : TrackerState,
      (processResults s none).fingerTip = s.fingerTip ∧
      (processResults s none).thumbUpFlag = s.thumbUpFlag ∧
      (processResults s none).smoothed = s.smoothed ∧
      (processResults s none).gunPose = false ∧
      (processResults s none).conf = 0 ∧
      (processResults s none).landmarks = none) ∧
    (∀ s : GameState,
      (step s Ev.lost).1.targetX = s.targetX ∧
      (step s Ev.lost).1.targetY = s.targetY ∧
      (step s Ev.lost).1.wasThumbUp = s.wasThumbUp ∧
      (step s Ev.lost).1.isGunPose = false) :=
  ⟨fun s => ⟨rfl, rfl, rfl, rfl, rfl, rfl⟩,
   fun s => ⟨rfl, rfl, rfl, rfl⟩⟩

end Gunshot
